import Mathlib

/-!
Verification development for the picking engine of `bevy_mod_picking`
(`src/lib.rs`): ray construction (`build_rays`), mesh scanning
(`pick_mesh`) and the pick state store (`PickState`).

Modelling conventions:
* `f32` scalars are modelled as exact rationals (`ℚ`).  The one value that
  matters by name, `f32::MAX`, is the rational `f32MAX` below.  Values whose
  comparisons can be unordered (the `distance` field, compared in Rust with
  `partial_cmp` / `<`) are modelled by `F`, a rational extended with a `nan`
  element on which every comparison is unordered, mirroring IEEE NaN
  comparison semantics.
* `glam` (the external math crate of the source's bevy version) is modelled
  at its interface: column-major 4x4 matrices, `transform_point3` with the
  perspective divide of pre-0.10 glam, `to_scale_rotation_translation`
  reduced to the only component the source uses (the translation, i.e. the
  matrix's fourth column).
* Rust `HashMap`s keyed by `PickingGroup` are modelled as association lists
  with unique keys; iteration order never matters to any statement proved
  here.
* Rust panics are modelled as `Except.error`.
-/

set_option allowUnsafeReducibility true in
attribute [semireducible] Rat.add Rat.sub Rat.mul Rat.div Rat.inv Rat.neg

/-- Total comparison of rationals, the order `f32` comparisons use on
ordinary (non-NaN) values. -/
def qcmp (a b : ℚ) : Ordering :=
  if a < b then Ordering.lt else if a = b then Ordering.eq else Ordering.gt

/-- Model of an `f32` that may be NaN: `val q` is an ordinary value, `nan`
is unordered against everything (including itself), as in IEEE 754. -/
inductive F : Type where
  | nan : F
  | val (q : ℚ) : F
deriving DecidableEq, Repr

/-- Model of Rust `f32::partial_cmp`: `none` exactly when one side is NaN. -/
def F.pcmp : F → F → Option Ordering
  | F.val a, F.val b => some (qcmp a b)
  | _, _ => none

/-- Model of Rust `<` on `f32`: false whenever one side is NaN. -/
def F.lt : F → F → Bool
  | F.val a, F.val b => decide (a < b)
  | _, _ => false

/-- Model of `f32::abs`; the absolute value of NaN is NaN. -/
def F.abs : F → F
  | F.nan => F.nan
  | F.val q => F.val |q|

/-- The value of `f32::MAX`, i.e. `(2 - 2^-23) * 2^127 = 2^128 - 2^104`,
written as a literal. -/
def f32MAX : F := F.val 340282346638528859811704183484516925440

/-- A 2D vector of rationals (models `glam::Vec2`). -/
structure Vec2 where
  x : ℚ
  y : ℚ
deriving DecidableEq, Repr

/-- Componentwise division (models `glam` `Vec2 / Vec2`). -/
def Vec2.div (a b : Vec2) : Vec2 := ⟨a.x / b.x, a.y / b.y⟩

/-- Scalar multiplication on `Vec2`. -/
def Vec2.scale (a : Vec2) (s : ℚ) : Vec2 := ⟨a.x * s, a.y * s⟩

/-- Componentwise subtraction on `Vec2`. -/
def Vec2.sub (a b : Vec2) : Vec2 := ⟨a.x - b.x, a.y - b.y⟩

/-- A 3D vector of rationals (models `glam::Vec3`). -/
structure Vec3 where
  x : ℚ
  y : ℚ
  z : ℚ
deriving DecidableEq, Repr

/-- Models `Vec2::extend`: append a z component. -/
def Vec2.extend (a : Vec2) (z : ℚ) : Vec3 := ⟨a.x, a.y, z⟩

/-- Componentwise subtraction on `Vec3`. -/
def Vec3.sub (a b : Vec3) : Vec3 := ⟨a.x - b.x, a.y - b.y, a.z - b.z⟩

/-- Models `Vec3::zero()`. -/
def Vec3.zero : Vec3 := ⟨0, 0, 0⟩

/-- A 4D vector of rationals (models `glam::Vec4`). -/
structure Vec4 where
  x : ℚ
  y : ℚ
  z : ℚ
  w : ℚ
deriving DecidableEq, Repr

/-- Scalar multiplication on `Vec4`. -/
def Vec4.scale (a : Vec4) (s : ℚ) : Vec4 := ⟨a.x * s, a.y * s, a.z * s, a.w * s⟩

/-- Componentwise addition on `Vec4`. -/
def Vec4.add (a b : Vec4) : Vec4 := ⟨a.x + b.x, a.y + b.y, a.z + b.z, a.w + b.w⟩

/-- Models `Vec4::truncate`: drop the w component. -/
def Vec4.truncate (a : Vec4) : Vec3 := ⟨a.x, a.y, a.z⟩

/-- A column-major 4x4 matrix of rationals (models `glam::Mat4`); the
`x_axis` .. `w_axis` fields are the four columns, as in `glam`. -/
structure Mat4 where
  x_axis : Vec4
  y_axis : Vec4
  z_axis : Vec4
  w_axis : Vec4
deriving DecidableEq, Repr

/-- Matrix application to a `Vec4` (linear combination of the columns). -/
def Mat4.apply4 (m : Mat4) (v : Vec4) : Vec4 :=
  ((((m.x_axis.scale v.x).add (m.y_axis.scale v.y)).add
      (m.z_axis.scale v.z)).add (m.w_axis.scale v.w))

/-- Matrix product (models `glam` `Mat4 * Mat4`): each column of the result
is the left matrix applied to the corresponding column of the right one. -/
def Mat4.mul (a b : Mat4) : Mat4 :=
  ⟨a.apply4 b.x_axis, a.apply4 b.y_axis, a.apply4 b.z_axis, a.apply4 b.w_axis⟩

/-- Models pre-0.10 `glam` `Mat4::transform_point3`: extend the point with
w = 1, apply the matrix, and divide by the resulting w (perspective
divide; in `ℚ` division by a zero w yields 0 by Lean's convention). -/
def Mat4.transform_point3 (m : Mat4) (p : Vec3) : Vec3 :=
  let v := m.apply4 ⟨p.x, p.y, p.z, 1⟩
  ⟨v.x / v.w, v.y / v.w, v.z / v.w⟩

/-- Models the translation output of `glam`
`Mat4::to_scale_rotation_translation`, the only output the source uses:
the translation is the truncated fourth column. -/
def Mat4.to_translation (m : Mat4) : Vec3 := m.w_axis.truncate

/-- The identity matrix. -/
def Mat4.identity : Mat4 :=
  ⟨⟨1, 0, 0, 0⟩, ⟨0, 1, 0, 0⟩, ⟨0, 0, 1, 0⟩, ⟨0, 0, 0, 1⟩⟩

/-- Determinant of a 3x3 matrix given row by row, used for cofactors. -/
def det3 (a b c d e f g h i : ℚ) : ℚ :=
  a * (e * i - f * h) - b * (d * i - f * g) + c * (d * h - e * g)

/-- Models `glam` `Mat4::inverse` (adjugate divided by determinant).
Entry `(i, j)` of the matrix is row i of column j; columns are the axes. -/
def Mat4.inverse (m : Mat4) : Mat4 :=
  let a00 := m.x_axis.x; let a01 := m.y_axis.x; let a02 := m.z_axis.x; let a03 := m.w_axis.x
  let a10 := m.x_axis.y; let a11 := m.y_axis.y; let a12 := m.z_axis.y; let a13 := m.w_axis.y
  let a20 := m.x_axis.z; let a21 := m.y_axis.z; let a22 := m.z_axis.z; let a23 := m.w_axis.z
  let a30 := m.x_axis.w; let a31 := m.y_axis.w; let a32 := m.z_axis.w; let a33 := m.w_axis.w
  let c00 :=   det3 a11 a12 a13 a21 a22 a23 a31 a32 a33
  let c01 := - det3 a10 a12 a13 a20 a22 a23 a30 a32 a33
  let c02 :=   det3 a10 a11 a13 a20 a21 a23 a30 a31 a33
  let c03 := - det3 a10 a11 a12 a20 a21 a22 a30 a31 a32
  let c10 := - det3 a01 a02 a03 a21 a22 a23 a31 a32 a33
  let c11 :=   det3 a00 a02 a03 a20 a22 a23 a30 a32 a33
  let c12 := - det3 a00 a01 a03 a20 a21 a23 a30 a31 a33
  let c13 :=   det3 a00 a01 a02 a20 a21 a22 a30 a31 a32
  let c20 :=   det3 a01 a02 a03 a11 a12 a13 a31 a32 a33
  let c21 := - det3 a00 a02 a03 a10 a12 a13 a30 a32 a33
  let c22 :=   det3 a00 a01 a03 a10 a11 a13 a30 a31 a33
  let c23 := - det3 a00 a01 a02 a10 a11 a12 a30 a31 a32
  let c30 := - det3 a01 a02 a03 a11 a12 a13 a21 a22 a23
  let c31 :=   det3 a00 a02 a03 a10 a12 a13 a20 a22 a23
  let c32 := - det3 a00 a01 a03 a10 a11 a13 a20 a21 a23
  let c33 :=   det3 a00 a01 a02 a10 a11 a12 a20 a21 a22
  let det := a00 * c00 + a01 * c01 + a02 * c02 + a03 * c03
  ⟨⟨c00 / det, c01 / det, c02 / det, c03 / det⟩,
   ⟨c10 / det, c11 / det, c12 / det, c13 / det⟩,
   ⟨c20 / det, c21 / det, c22 / det, c23 / det⟩,
   ⟨c30 / det, c31 / det, c32 / det, c33 / det⟩⟩


/-- Models `bevy` entity ids (opaque identifiers; only equality is used). -/
abbrev Entity := Nat

/-- Models `bevy` window ids. -/
abbrev WindowId := Nat

/-- Window metrics, the only window data the source reads. -/
structure Window where
  width : ℚ
  height : ℚ
deriving DecidableEq, Repr

/-- Models `bevy::window::CursorMoved` events. -/
structure CursorMoved where
  id : WindowId
  position : Vec2
deriving DecidableEq, Repr

/-- Modelled from the spec: the `Ray3D` primitive of the missing `raycast`
module, `{origin, direction}` per §3; per §3 the direction is stored as
supplied by the producer (not re-normalized). -/
structure Ray3D where
  origin : Vec3
  direction : Vec3
deriving DecidableEq, Repr

/-- Modelled from the spec: `Ray3D::new` is the plain constructor (§3: the
producer's direction "need not be pre-normalized"). -/
def Ray3D.new (origin direction : Vec3) : Ray3D := ⟨origin, direction⟩

/-- Modelled from the spec: the `Triangle` primitive of the missing
`raycast` module, three world-space vertices (§3). -/
structure Triangle where
  v0 : Vec3
  v1 : Vec3
  v2 : Vec3
deriving DecidableEq, Repr

/-- Models `PickingGroup` from `src/lib.rs`. -/
inductive PickingGroup : Type where
  | None : PickingGroup
  | Group (n : Nat) : PickingGroup
deriving DecidableEq, Repr

/-- Models `PickIntersection` from `src/lib.rs`: entity, hit encoded as a
ray (origin = hit point, direction = surface normal), and distance. -/
structure PickIntersection where
  entity : Entity
  intersection : Ray3D
  distance : F
deriving DecidableEq, Repr

/-- Models `bevy` `PrimitiveTopology` (the variants of the render crate). -/
inductive PrimitiveTopology : Type where
  | PointList | LineList | LineStrip | TriangleList | TriangleStrip
deriving DecidableEq, Repr

/-- Models a `bevy` mesh asset at the interface the scanner reads (§6):
topology tag, the `VertexAttribute::POSITION` buffer already extracted as
a list of points (the source's attribute-list plumbing and its unwrap are
collapsed into this field), and the optional index buffer. -/
structure Mesh where
  primitive_topology : PrimitiveTopology
  positions : List Vec3
  indices : Option (List Nat)
deriving DecidableEq, Repr

/-- Models `PickableMesh` from `src/lib.rs` (the bounding-sphere hook is
never read by the scanner and is omitted). -/
structure PickableMesh where
  group : List PickingGroup
deriving DecidableEq, Repr

/-- One row of `pick_mesh`'s query
`(&Handle<Mesh>, &Transform, &PickableMesh, Entity, &Draw)`: the handle
and the asset store are collapsed into `mesh : Option Mesh`
(`meshes.get(mesh_handle)`), `transform` is `transform.value()`, and
`is_visible` is `draw.is_visible`. -/
structure MeshEntry where
  mesh : Option Mesh
  transform : Mat4
  pickable : PickableMesh
  entity : Entity
  is_visible : Bool
deriving DecidableEq, Repr

/-- Association-list lookup, modelling `HashMap::get` for maps keyed by
`PickingGroup` (key sets here are always duplicate-free). -/
def alGet {α : Type} : List (PickingGroup × α) → PickingGroup → Option α
  | [], _ => none
  | (k, v) :: t, g => if k = g then some v else alGet t g

/-- The ray map type: models `HashMap<PickingGroup, Ray3D>`. -/
abbrev RayMap := List (PickingGroup × Ray3D)

/-- The intersection map type: models
`HashMap<PickingGroup, Vec<PickIntersection>>`. -/
abbrev ListMap := List (PickingGroup × List PickIntersection)

/-- Models `PickState` from `src/lib.rs`. -/
structure PickState where
  ray_map : RayMap
  ordered_pick_list_map : ListMap
deriving DecidableEq, Repr

/-- Models `PickState::list`. -/
def PickState.list (st : PickState) (group : PickingGroup) : Option (List PickIntersection) :=
  alGet st.ordered_pick_list_map group

/-- Models `PickState::top` (`list.first()` on the group's list). -/
def PickState.top (st : PickState) (group : PickingGroup) : Option PickIntersection :=
  match alGet st.ordered_pick_list_map group with
  | some list => list.head?
  | none => none

/-- Models `PickingMethod` from `src/lib.rs`. -/
inductive PickingMethod : Type where
  | Cursor (window_id : WindowId) : PickingMethod
  | ScreenSpace (coordinates_ndc : Vec2) : PickingMethod
  | Center : PickingMethod
deriving DecidableEq, Repr

/-- One row of `build_rays`'s query `(&mut PickingSource, &Transform,
Entity)` together with the per-source data the body reads: `camera` models
`camera_query.get::<Camera>(entity)` (the projection matrix when the
entity has a `Camera`), and `cursor_event` models
`pick_source.cursor_events.latest(&cursor)`. -/
structure PickingSource where
  group : PickingGroup
  pick_method : PickingMethod
  transform : Mat4
  camera : Option Mat4
  cursor_event : Option CursorMoved
deriving DecidableEq, Repr

/-- The panic message of a duplicate group insertion in `build_rays`. -/
def dupMsg (n : Nat) : String :=
  "Multiple PickingSources have been added to pick group: " ++ toString n

/-- The panic message of a `PickingSource` with no `Camera` component. -/
def noCameraMsg (n : Nat) : String :=
  "The PickingSource in group " ++ toString n ++ " has no associated Camera component"

/-- The panic message of `windows.get(window_id).unwrap()` failing. -/
def windowMsg : String := "window not found"

/-- Models the `ray_map.insert` + `is_some` panic at the end of each
`build_rays` arm: inserting a ray for a group that already has one this
tick is a fatal error naming the group. -/
def insertRay (acc : RayMap) (g : PickingGroup) (ray : Ray3D) (group_number : Nat) :
    Except String RayMap :=
  if (alGet acc g).isSome then Except.error (dupMsg group_number)
  else Except.ok (acc ++ [(g, ray)])

/-- Models one iteration of `build_rays`'s source loop (`src/lib.rs`
434-536): skip `PickingGroup::None` sources, resolve the pick method, and
insert the resulting ray into the ray map. -/
def buildRaysStep (windows : WindowId → Option Window) (acc : RayMap)
    (s : PickingSource) : Except String RayMap :=
  match s.group with
  | PickingGroup.None => Except.ok acc
  | PickingGroup.Group group_number =>
    match s.pick_method with
    | PickingMethod.Cursor window_id =>
      match s.camera with
      | none => Except.error (noCameraMsg group_number)
      | some projection_matrix =>
        match s.cursor_event with
        | none => Except.ok acc
        | some cursor_moved =>
          if cursor_moved.id = window_id then
            match windows window_id with
            | none => Except.error windowMsg
            | some window =>
              let screen_size : Vec2 := ⟨window.width, window.height⟩
              let cursor_pos_ndc : Vec3 :=
                (((cursor_moved.position.div screen_size).scale 2).sub ⟨1, 1⟩).extend 1
              let camera_matrix := s.transform
              let camera_position := camera_matrix.to_translation
              let ndc_to_world := camera_matrix.mul projection_matrix.inverse
              let cursor_position := ndc_to_world.transform_point3 cursor_pos_ndc
              let ray_direction := cursor_position.sub camera_position
              insertRay acc s.group (Ray3D.new camera_position ray_direction) group_number
          else Except.ok acc
    | PickingMethod.ScreenSpace coordinates_ndc =>
      match s.camera with
      | none => Except.error (noCameraMsg group_number)
      | some projection_matrix =>
        let cursor_pos_ndc : Vec3 := coordinates_ndc.extend 1
        let camera_matrix := s.transform
        let camera_position := camera_matrix.to_translation
        let ndc_to_world := camera_matrix.mul projection_matrix.inverse
        let cursor_position := ndc_to_world.transform_point3 cursor_pos_ndc
        let ray_direction := cursor_position.sub camera_position
        insertRay acc s.group (Ray3D.new camera_position ray_direction) group_number
    | PickingMethod.Center =>
      let pick_position_ndc : Vec3 := ⟨0, 0, 1⟩
      let source_transform := s.transform
      let pick_position := source_transform.transform_point3 pick_position_ndc
      let source_origin := source_transform.to_translation
      let ray_direction := pick_position.sub source_origin
      insertRay acc s.group (Ray3D.new source_origin ray_direction) group_number

/-- The source loop of `build_rays`, threading the ray map. -/
def buildRaysGo (windows : WindowId → Option Window) :
    List PickingSource → RayMap → Except String RayMap
  | [], acc => Except.ok acc
  | s :: rest, acc =>
    match buildRaysStep windows acc s with
    | Except.error e => Except.error e
    | Except.ok acc2 => buildRaysGo windows rest acc2

/-- Models the `build_rays` system (`src/lib.rs` 422-537): clear the ray
map, then process every `PickingSource`; the value returned is the ray map
left in `PickState`, and an error is a panic of the tick. -/
def build_rays (windows : WindowId → Option Window) (sources : List PickingSource) :
    Except String RayMap :=
  buildRaysGo windows sources []

/-- Modelled from the spec: the interface of the missing `raycast` module
as the scanner consumes it.  `rti` models
`ray_triangle_intersection(ray, triangle, RaycastAlgorithm::default())`
(§4.1 fixes only its contract, not a formula), and `length` models
`glam` `Vec3::length` (Euclidean length, irrational in general, hence kept
as an interface function).  Every theorem below holds for every
instantiation of this structure. -/
structure RaycastModel where
  rti : Ray3D → Triangle → Option Ray3D
  length : Vec3 → F

/-- The distance the scanner computes for a hit:
`(intersection.origin() - pick_ray.origin()).length().abs()`. -/
def distOf (M : RaycastModel) (pick_ray : Ray3D) (intersection : Ray3D) : F :=
  (M.length (intersection.origin.sub pick_ray.origin)).abs

/-- Group the index buffer into consecutive triples; a trailing chunk of
fewer than three indices is dropped (the `index.len() != 3` break). -/
def toTriples : List Nat → List (Nat × Nat × Nat)
  | a :: b :: c :: t => (a, b, c) :: toTriples t
  | _ => []

/-- Build one world-space triangle from an index triple: each vertex index
is looked up in the position buffer (`none` models the Rust out-of-bounds
indexing panic on `vertex_positions[index[i] as usize]`), then transformed
by `mesh_to_world.transform_point3`. -/
def worldTri (mesh_to_world : Mat4) (positions : List Vec3) (t : Nat × Nat × Nat) :
    Option Triangle :=
  match positions.get? t.1, positions.get? t.2.1, positions.get? t.2.2 with
  | some p0, some p1, some p2 =>
    some ⟨mesh_to_world.transform_point3 p0,
          mesh_to_world.transform_point3 p1,
          mesh_to_world.transform_point3 p2⟩
  | _, _, _ => none

/-- All world-space triangles of a mesh; `none` if any vertex index is out
of bounds of the position buffer. -/
def worldTris (mesh_to_world : Mat4) (positions : List Vec3) (indices : List Nat) :
    Option (List Triangle) :=
  (toTriples indices).mapM (worldTri mesh_to_world positions)

/-- The message used to model the Rust out-of-bounds indexing panic in the
triangle construction loop. -/
def oobMsg : String := "index out of bounds: vertex index outside the position buffer"

/-- The panic message of a triangle-list mesh with no index buffer. -/
def noIndexMsg (e : Entity) : String :=
  "No index matrix found in mesh " ++ toString e

/-- Models the triangle loop of `pick_mesh` (`src/lib.rs` 597-630): track
the minimum pick distance (starting from `f32::MAX`) and the current best
intersection, replacing it whenever a hit is strictly closer. -/
def pickLoop (M : RaycastModel) (entity : Entity) (pick_ray : Ray3D) :
    List Triangle → F → Option PickIntersection → Option PickIntersection
  | [], _, best => best
  | triangle :: rest, min_pick_distance, best =>
    match M.rti pick_ray triangle with
    | none => pickLoop M entity pick_ray rest min_pick_distance best
    | some intersection =>
      let distance := distOf M pick_ray intersection
      if distance.lt min_pick_distance then
        pickLoop M entity pick_ray rest distance
          (some ⟨entity, intersection, distance⟩)
      else
        pickLoop M entity pick_ray rest min_pick_distance best

/-- The closest hit of a ray on a mesh's triangles, if any. -/
def closestPick (M : RaycastModel) (entity : Entity) (pick_ray : Ray3D)
    (tris : List Triangle) : Option PickIntersection :=
  pickLoop M entity pick_ray tris f32MAX none

/-- The distances of all triangle hits of a ray on a triangle list. -/
def hitDists (M : RaycastModel) (pick_ray : Ray3D) (tris : List Triangle) : List F :=
  tris.filterMap (fun t => (M.rti pick_ray t).map (distOf M pick_ray))

/-- Models the update of `ordered_pick_list_map` (`src/lib.rs` 632-642):
push onto the group's list if present, otherwise insert a fresh
one-element list. -/
def appendPick : ListMap → PickingGroup → PickIntersection → ListMap
  | [], g, pick => [(g, [pick])]
  | (k, v) :: t, g, pick =>
    if k = g then (k, v ++ [pick]) :: t else (k, v) :: appendPick t g pick

/-- The rays relevant to one mesh: for each of the mesh's groups in order,
the ray registered for that group this tick, if any
(`src/lib.rs` 563-568). -/
def pickRaysOf (ray_map : RayMap) (groups : List PickingGroup) :
    List (PickingGroup × Ray3D) :=
  groups.filterMap (fun g => (alGet ray_map g).map (fun r => (g, r)))

/-- The per-mesh recording loop (`src/lib.rs` 594-643): for each ray
sharing a group with the mesh, record the closest hit, if any, into that
group's list. -/
def recordHits (M : RaycastModel) (ent : Entity) (tris : List Triangle)
    (prs : List (PickingGroup × Ray3D)) (acc : ListMap) : ListMap :=
  prs.foldl (fun acc2 gr =>
    match closestPick M ent gr.2 tris with
    | some pick => appendPick acc2 gr.1 pick
    | none => acc2) acc

/-- Models one iteration of `pick_mesh`'s mesh loop (`src/lib.rs`
555-652): skip invisible meshes, meshes with no ray in any of their
groups, unresolved mesh assets and non-triangle-list topologies; abort on
a missing index buffer or an out-of-bounds vertex index; otherwise record
the closest hit per matching group. -/
def processMesh (M : RaycastModel) (ray_map : RayMap) (acc : ListMap)
    (e : MeshEntry) : Except String ListMap :=
  if e.is_visible = false then Except.ok acc
  else
    let pick_rays := pickRaysOf ray_map e.pickable.group
    if pick_rays.isEmpty then Except.ok acc
    else
      match e.mesh with
      | none => Except.ok acc
      | some mesh =>
        if mesh.primitive_topology ≠ PrimitiveTopology.TriangleList then Except.ok acc
        else
          match mesh.indices with
          | none => Except.error (noIndexMsg e.entity)
          | some indices =>
            match worldTris e.transform mesh.positions indices with
            | none => Except.error oobMsg
            | some tris =>
              Except.ok (recordHits M e.entity tris pick_rays acc)

/-- The mesh loop of `pick_mesh`, threading the intersection map. -/
def scanMeshes (M : RaycastModel) (ray_map : RayMap) :
    List MeshEntry → ListMap → Except String ListMap
  | [], acc => Except.ok acc
  | e :: rest, acc =>
    match processMesh M ray_map acc e with
    | Except.error s => Except.error s
    | Except.ok acc2 => scanMeshes M ray_map rest acc2

/-- The sort comparator of `pick_mesh` (`src/lib.rs` 655-659):
`a.distance.partial_cmp(&b.distance).unwrap_or(Equal)`. -/
def cmpPick (a b : PickIntersection) : Ordering :=
  (F.pcmp a.distance b.distance).getD Ordering.eq

/-- The comparator as a "may come before" boolean: everything except a
strictly greater comparison. -/
def lePick (a b : PickIntersection) : Bool :=
  match cmpPick a b with
  | Ordering.gt => false
  | _ => true

/-- Insert into a sorted list, keeping existing elements first while they
may come before the new one (models a pass of a stable comparison sort). -/
def orderedInsertPick (p : PickIntersection) :
    List PickIntersection → List PickIntersection
  | [] => [p]
  | q :: t => if lePick p q then p :: q :: t else q :: orderedInsertPick p t

/-- Models `list.sort_by` with the scanner's comparator (a stable
comparison sort). -/
def sortPicks (l : List PickIntersection) : List PickIntersection :=
  l.foldr orderedInsertPick []

/-- Sort every group's list (`src/lib.rs` 654-660). -/
def sortLists (m : ListMap) : ListMap :=
  m.map (fun kv => (kv.1, sortPicks kv.2))

/-- Models the `pick_mesh` system (`src/lib.rs` 539-661): if the ray map
is empty do nothing; otherwise clear the intersection map, scan every
pickable mesh, and sort each group's list by distance. -/
def pick_mesh (M : RaycastModel) (st : PickState) (query : List MeshEntry) :
    Except String PickState :=
  if st.ray_map.isEmpty then Except.ok st
  else
    match scanMeshes M st.ray_map query [] with
    | Except.error s => Except.error s
    | Except.ok m => Except.ok ⟨st.ray_map, sortLists m⟩

/-- Modelled from the spec: the reference cursor-ray construction of §4.2
step 3 (`CursorFollow`), stated in the spec's own words: `ndc = (screen /
window_size) * 2 - 1`; unproject `(ndc.x, ndc.y, 1.0)` through
`camera_transform * inverse(projection_matrix)`; ray origin = the
translation component of the camera transform; ray direction = world
point minus origin. -/
def specCursorRay (window : Window) (camera_transform projection_matrix : Mat4)
    (screen : Vec2) : Ray3D :=
  let window_size : Vec2 := ⟨window.width, window.height⟩
  let ndc : Vec2 := ((screen.div window_size).scale 2).sub ⟨1, 1⟩
  let world_point :=
    (camera_transform.mul projection_matrix.inverse).transform_point3
      (ndc.extend 1)
  let origin := camera_transform.to_translation
  ⟨origin, world_point.sub origin⟩

/-- A concrete intersector instance used by witnesses: every triangle is
hit at its first vertex with an upward normal, and lengths are measured
with the taxicab norm (any `RaycastModel` works; the theorems are
quantified over all of them). -/
def Mwit : RaycastModel :=
  { rti := fun _ t => some ⟨t.v0, ⟨0, 0, 1⟩⟩
    length := fun v => F.val (|v.x| + |v.y| + |v.z|) }

/-- The concrete pick ray used by witnesses. -/
def wRay : Ray3D := ⟨⟨0, 0, 0⟩, ⟨0, 0, 1⟩⟩

/-- A concrete triangle-list mesh whose first vertex sits at depth 1. -/
def meshNear : Mesh :=
  { primitive_topology := PrimitiveTopology.TriangleList
    positions := [⟨0, 0, 1⟩, ⟨1, 0, 1⟩, ⟨0, 1, 1⟩]
    indices := some [0, 1, 2] }

/-- A concrete triangle-list mesh whose first vertex sits at depth 2. -/
def meshFar : Mesh :=
  { primitive_topology := PrimitiveTopology.TriangleList
    positions := [⟨0, 0, 2⟩, ⟨1, 0, 2⟩, ⟨0, 1, 2⟩]
    indices := some [0, 1, 2] }

/-- Concrete query entry: the far mesh, entity 1, group 0, visible. -/
def entryFar : MeshEntry :=
  { mesh := some meshFar
    transform := Mat4.identity
    pickable := ⟨[PickingGroup.Group 0]⟩
    entity := 1
    is_visible := true }

/-- Concrete query entry: the near mesh, entity 0, group 0, visible. -/
def entryNear : MeshEntry :=
  { mesh := some meshNear
    transform := Mat4.identity
    pickable := ⟨[PickingGroup.Group 0]⟩
    entity := 0
    is_visible := true }

/-- Concrete starting state: one ray for group 0, empty intersection map. -/
def stWit : PickState := ⟨[(PickingGroup.Group 0, wRay)], []⟩

/-- Concrete two-mesh query, far mesh first so the final sort reorders. -/
def queryWit : List MeshEntry := [entryFar, entryNear]

/-- Provenance of an intersection record in group `g`'s list: it comes
from some entry of the query whose entity it carries, that entry was
visible, declared `g` among its groups, `g` had a ray this tick, the
mesh resolved to a triangle-list asset whose world-space triangles
include one hit by the ray exactly at the record's intersection, the
record's distance is the recorded hit distance, and no hit of that mesh
by that ray is strictly closer. -/
def Provenance (M : RaycastModel) (ray_map : RayMap) (query : List MeshEntry)
    (g : PickingGroup) (r : PickIntersection) : Prop :=
  ∃ e ∈ query, e.entity = r.entity ∧ e.is_visible = true ∧
    g ∈ e.pickable.group ∧
    ∃ ray, alGet ray_map g = some ray ∧
    ∃ mesh indices tris, e.mesh = some mesh ∧
      mesh.primitive_topology = PrimitiveTopology.TriangleList ∧
      mesh.indices = some indices ∧
      worldTris e.transform mesh.positions indices = some tris ∧
      ∃ t ∈ tris, M.rti ray t = some r.intersection ∧
        r.distance = distOf M ray r.intersection ∧
        ∀ d ∈ hitDists M ray tris, F.lt d r.distance = false

/-- Number of records for entity `ent` in group `g`'s list of the map. -/
def countIn (m : ListMap) (g : PickingGroup) (ent : Entity) : Nat :=
  (((alGet m g).getD []).filter (fun r => r.entity == ent)).length

/-- Upper-bound contribution of a query to entity `ent`'s records in
group `g`: each entry of the query can append at most one record per
occurrence of `g` in its group list. -/
def sumContrib (query : List MeshEntry) (g : PickingGroup) (ent : Entity) : Nat :=
  (query.map (fun e => if e.entity = ent then e.pickable.group.count g else 0)).sum

/-- The exact condition under which `pick_mesh`'s mesh loop panics at a
query entry: the entry is visible, shares a group with the ray map, its
asset resolves to a triangle list, and either the index buffer is absent
or some index is out of bounds of the position buffer. -/
def meshPanics (ray_map : RayMap) (e : MeshEntry) : Bool :=
  e.is_visible && !(pickRaysOf ray_map e.pickable.group).isEmpty &&
  (match e.mesh with
   | none => false
   | some mesh =>
     mesh.primitive_topology == PrimitiveTopology.TriangleList &&
     (match mesh.indices with
      | none => true
      | some indices => (worldTris e.transform mesh.positions indices).isNone))

/-- A source "resolves a ray" on a tick when its `build_rays` arm reaches
the ray-map insertion: its group is not `None`, and its method's data is
available (camera for `Cursor`/`ScreenSpace`; a cursor event matching the
configured window, and that window's metrics, for `Cursor`). -/
def resolvesRay (windows : WindowId → Option Window) (s : PickingSource) : Bool :=
  match s.group with
  | PickingGroup.None => false
  | PickingGroup.Group _ =>
    match s.pick_method with
    | PickingMethod.Cursor window_id =>
      s.camera.isSome &&
      (match s.cursor_event with
       | some ev => ev.id == window_id && (windows window_id).isSome
       | none => false)
    | PickingMethod.ScreenSpace _ => s.camera.isSome
    | PickingMethod.Center => true

/-- The record the witness scan produces for the near mesh. -/
def pickNearRec : PickIntersection := ⟨0, ⟨⟨0, 0, 1⟩, ⟨0, 0, 1⟩⟩, F.val 1⟩

/-- The record the witness scan produces for the far mesh. -/
def pickFarRec : PickIntersection := ⟨1, ⟨⟨0, 0, 2⟩, ⟨0, 0, 1⟩⟩, F.val 2⟩

/-- The state after the witness scan: both hits, sorted near-first. -/
def stWitOut : PickState :=
  ⟨[(PickingGroup.Group 0, wRay)],
   [(PickingGroup.Group 0, [pickNearRec, pickFarRec])]⟩

/-- A query entry listing the same group twice in its group list. -/
def entryDup : MeshEntry :=
  { mesh := some meshNear
    transform := Mat4.identity
    pickable := ⟨[PickingGroup.Group 0, PickingGroup.Group 0]⟩
    entity := 0
    is_visible := true }

/-- The state after scanning `entryDup`: its record is filed twice. -/
def outDup : PickState :=
  ⟨[(PickingGroup.Group 0, wRay)],
   [(PickingGroup.Group 0, [pickNearRec, pickNearRec])]⟩

/-- A triangle-list mesh with an index buffer whose index 5 is out of
bounds of its three-point position buffer. -/
def meshOOB : Mesh :=
  { primitive_topology := PrimitiveTopology.TriangleList
    positions := [⟨0, 0, 1⟩, ⟨1, 0, 1⟩, ⟨0, 1, 1⟩]
    indices := some [0, 1, 5] }

/-- A visible group-0 query entry carrying `meshOOB`. -/
def entryOOB : MeshEntry :=
  { mesh := some meshOOB
    transform := Mat4.identity
    pickable := ⟨[PickingGroup.Group 0]⟩
    entity := 7
    is_visible := true }

/-- A cursor source with no camera and no pending cursor event. -/
def srcNoCam : PickingSource :=
  { group := PickingGroup.Group 0
    pick_method := PickingMethod.Cursor 0
    transform := Mat4.identity
    camera := none
    cursor_event := none }

/-- A cursor source with a camera but no pending cursor event. -/
def srcCam : PickingSource :=
  { group := PickingGroup.Group 0
    pick_method := PickingMethod.Cursor 0
    transform := Mat4.identity
    camera := some Mat4.identity
    cursor_event := none }

/-- A forward-axis source in group 0 (always resolves a ray). -/
def srcCenter : PickingSource :=
  { group := PickingGroup.Group 0
    pick_method := PickingMethod.Center
    transform := Mat4.identity
    camera := none
    cursor_event := none }

/-- A window lookup with no windows. -/
def windowsNone : WindowId → Option Window := fun _ => none

/-- A window lookup exposing one 2x2 window with id 0. -/
def windowsC8 : WindowId → Option Window :=
  fun i => if i = 0 then some ⟨2, 2⟩ else none

/-- A cursor source in group 0 with identity camera and transform and a
pending cursor event at pixel (1, 1) of window 0. -/
def srcC8 : PickingSource :=
  { group := PickingGroup.Group 0
    pick_method := PickingMethod.Cursor 0
    transform := Mat4.identity
    camera := some Mat4.identity
    cursor_event := some ⟨0, ⟨1, 1⟩⟩ }

/-- A state with an empty ray map and a leftover intersection list. -/
def stStale : PickState := ⟨[], [(PickingGroup.Group 3, [pickNearRec])]⟩

/-- Whether a tick result is a panic. -/
def isErr {α : Type} : Except String α → Bool
  | Except.error _ => true
  | Except.ok _ => false

/-- Strict comparison of a value with itself is false (also for NaN). -/
theorem F.lt_self (a : F) : F.lt a a = false := by
  cases a with
  | nan => rfl
  | val q => simp [F.lt]

/-- Strict `f32` comparison is asymmetric. -/
theorem F.lt_asymm {a b : F} (h : F.lt a b = true) : F.lt b a = false := by
  cases a with
  | nan => cases b <;> simp [F.lt] at h
  | val q =>
    cases b with
    | nan => simp [F.lt] at h
    | val p =>
      simp [F.lt] at h ⊢
      exact le_of_lt h

/-- Strict `f32` comparison is transitive (NaN cases are vacuous). -/
theorem F.lt_trans {a b c : F} (h1 : F.lt a b = true) (h2 : F.lt b c = true) :
    F.lt a c = true := by
  cases a with
  | nan => simp [F.lt] at h1
  | val q =>
    cases b with
    | nan => simp [F.lt] at h1
    | val p =>
      cases c with
      | nan => simp [F.lt] at h2
      | val s =>
        simp [F.lt] at h1 h2 ⊢
        exact h1.trans h2

/-- The comparator never places an unordered pair strictly. -/
theorem cmpPick_of_pcmp_none {a b : PickIntersection}
    (h : F.pcmp a.distance b.distance = none) : cmpPick a b = Ordering.eq := by
  simp [cmpPick, h]

/-- Totality of the sort's "may come before" relation: if `a` must come
after `b` then `b` may come before `a`. -/
theorem lePick_total (a b : PickIntersection) :
    lePick a b = true ∨ lePick b a = true := by
  cases ha : a.distance with
  | nan => left; simp [lePick, cmpPick, F.pcmp, ha]
  | val q =>
    cases hb : b.distance with
    | nan => left; simp [lePick, cmpPick, ha, hb, F.pcmp]
    | val p =>
      rcases lt_trichotomy q p with h | h | h
      · left
        simp [lePick, cmpPick, F.pcmp, ha, hb, qcmp, h]
      · left
        simp [lePick, cmpPick, F.pcmp, ha, hb, qcmp, h]
      · right
        simp [lePick, cmpPick, F.pcmp, ha, hb, qcmp, h, asymm h, ne_of_gt h]

/-- Lookup across a concatenation of association lists. -/
theorem alGet_append {α : Type} (a b : List (PickingGroup × α)) (g : PickingGroup) :
    alGet (a ++ b) g =
      match alGet a g with
      | some v => some v
      | none => alGet b g := by
  induction a with
  | nil => simp [alGet]
  | cons kv t ih =>
    by_cases h : kv.1 = g
    · simp [alGet, h]
    · simp [alGet, h, ih]

/-- Lookup after `appendPick`: the target group's list gains `p` at its
end (the list starts as `[p]` if the group was absent); other groups are
untouched. -/
theorem alGet_appendPick (m : ListMap) (g : PickingGroup) (p : PickIntersection)
    (g2 : PickingGroup) :
    alGet (appendPick m g p) g2 =
      if g2 = g then some (((alGet m g).getD []) ++ [p]) else alGet m g2 := by
  induction m with
  | nil =>
    by_cases h : g2 = g
    · subst h; simp [appendPick, alGet]
    · simp [appendPick, alGet, h, Ne.symm h]
  | cons kv t ih =>
    obtain ⟨k, v⟩ := kv
    by_cases hk : k = g
    · subst hk
      by_cases h : g2 = k
      · subst h; simp [appendPick, alGet]
      · simp [appendPick, alGet, h, Ne.symm h]
    · by_cases h : g2 = g
      · subst h
        simp [appendPick, alGet, hk, ih]
      · simp [appendPick, alGet, hk, ih, h]

/-- Lookup in the sorted map: each group's list is sorted in place. -/
theorem alGet_sortLists (m : ListMap) (g : PickingGroup) :
    alGet (sortLists m) g = (alGet m g).map sortPicks := by
  induction m with
  | nil => simp [sortLists, alGet]
  | cons kv t ih =>
    by_cases h : kv.1 = g
    · simp [sortLists, alGet, h]
    · simp only [sortLists, alGet, List.map_cons, h, if_false]
      simpa [sortLists] using ih

/-- Inserting an element is a permutation of consing it. -/
theorem orderedInsertPick_perm (p : PickIntersection) (l : List PickIntersection) :
    List.Perm (orderedInsertPick p l) (p :: l) := by
  induction l with
  | nil => simp [orderedInsertPick]
  | cons q t ih =>
    by_cases h : lePick p q = true
    · simp [orderedInsertPick, h]
    · simp only [orderedInsertPick, h]
      simp only [Bool.false_eq_true, if_false]
      exact ((ih.cons q).trans (List.Perm.swap p q t))

/-- The sort is a permutation of its input. -/
theorem sortPicks_perm (l : List PickIntersection) :
    List.Perm (sortPicks l) l := by
  induction l with
  | nil => simp [sortPicks]
  | cons q t ih =>
    have : List.Perm (orderedInsertPick q (sortPicks t)) (q :: sortPicks t) :=
      orderedInsertPick_perm q (sortPicks t)
    exact (this.trans (ih.cons q))

/-- Inserting into a list whose adjacent pairs satisfy the comparator
preserves that property (using only totality of `lePick`, so unordered
NaN distances are harmless). -/
theorem orderedInsertPick_chain (p : PickIntersection) (l : List PickIntersection)
    (h : List.Chain' (fun a b => lePick a b = true) l) :
    List.Chain' (fun a b => lePick a b = true) (orderedInsertPick p l) := by
  induction l with
  | nil => simp [orderedInsertPick]
  | cons q t ih =>
    by_cases hle : lePick p q = true
    · simp only [orderedInsertPick, hle, if_true]
      exact List.Chain'.cons hle h
    · simp only [orderedInsertPick, hle]
      simp only [Bool.false_eq_true, if_false]
      have hqp : lePick q p = true := by
        rcases lePick_total p q with h1 | h1
        · exact absurd h1 hle
        · exact h1
      have ht : List.Chain' (fun a b => lePick a b = true) t := h.tail
      have hrec := ih ht
      cases t with
      | nil =>
        simp only [orderedInsertPick]
        exact List.Chain'.cons hqp (List.chain'_singleton p)
      | cons r t2 =>
        by_cases hpr : lePick p r = true
        · simp only [orderedInsertPick, hpr, if_true] at hrec ⊢
          exact List.Chain'.cons hqp hrec
        · simp only [orderedInsertPick, hpr] at hrec ⊢
          simp only [Bool.false_eq_true, if_false] at hrec ⊢
          have hqr : lePick q r = true := (List.chain'_cons.mp h).1
          exact List.Chain'.cons hqr hrec

/-- The sorted list satisfies the comparator on every adjacent pair. -/
theorem sortPicks_chain (l : List PickIntersection) :
    List.Chain' (fun a b => lePick a b = true) (sortPicks l) := by
  induction l with
  | nil => simp [sortPicks]
  | cons q t ih => exact orderedInsertPick_chain q (sortPicks t) ih

/-- Behaviour of the triangle loop: either it returns the incoming best
hit and no remaining hit beats the incoming minimum distance, or it
returns a hit of one of the remaining triangles that beats the incoming
minimum and that no remaining hit beats.  Because NaN never compares
strictly less, no hypotheses on the distances are needed. -/
theorem pickLoop_spec (M : RaycastModel) (e : Entity) (ray : Ray3D) :
    ∀ (ts : List Triangle) (minD : F) (best : Option PickIntersection),
      (pickLoop M e ray ts minD best = best ∧
        ∀ d ∈ hitDists M ray ts, F.lt d minD = false) ∨
      (∃ r, pickLoop M e ray ts minD best = some r ∧
        r.entity = e ∧
        (∃ t ∈ ts, M.rti ray t = some r.intersection ∧
          r.distance = distOf M ray r.intersection) ∧
        F.lt r.distance minD = true ∧
        ∀ d ∈ hitDists M ray ts, F.lt d r.distance = false) := by
  intro ts
  induction ts with
  | nil =>
    intro minD best
    left
    refine ⟨rfl, ?_⟩
    intro d hd
    simp [hitDists] at hd
  | cons t rest ih =>
    intro minD best
    cases hrt : M.rti ray t with
    | none =>
      have hd : hitDists M ray (t :: rest) = hitDists M ray rest := by
        simp [hitDists, List.filterMap_cons, hrt]
      have hp : pickLoop M e ray (t :: rest) minD best =
          pickLoop M e ray rest minD best := by
        simp [pickLoop, hrt]
      rcases ih minD best with ⟨h1, h2⟩ | ⟨r, h1, h2, ⟨t2, ht2, h3⟩, h4, h5⟩
      · left
        rw [hp, hd]
        exact ⟨h1, h2⟩
      · right
        exact ⟨r, by rw [hp]; exact h1, h2,
          ⟨t2, List.mem_cons_of_mem t ht2, h3⟩, h4, by rw [hd]; exact h5⟩
    | some inter =>
      have hd : hitDists M ray (t :: rest) =
          distOf M ray inter :: hitDists M ray rest := by
        simp [hitDists, List.filterMap_cons, hrt]
      cases hlt : F.lt (distOf M ray inter) minD with
      | true =>
        have hp : pickLoop M e ray (t :: rest) minD best =
            pickLoop M e ray rest (distOf M ray inter)
              (some ⟨e, inter, distOf M ray inter⟩) := by
          simp [pickLoop, hrt, hlt]
        rcases ih (distOf M ray inter) (some ⟨e, inter, distOf M ray inter⟩) with
          ⟨h1, h2⟩ | ⟨r, h1, h2, ⟨t2, ht2, h3⟩, h4, h5⟩
        · right
          refine ⟨⟨e, inter, distOf M ray inter⟩, by rw [hp]; exact h1, rfl,
            ⟨t, List.mem_cons_self t rest, hrt, rfl⟩, hlt, ?_⟩
          rw [hd]
          intro d hdm
          rcases List.mem_cons.mp hdm with h | h
          · subst h; exact F.lt_self _
          · exact h2 d h
        · right
          refine ⟨r, by rw [hp]; exact h1, h2,
            ⟨t2, List.mem_cons_of_mem t ht2, h3⟩, F.lt_trans h4 hlt, ?_⟩
          rw [hd]
          intro d hdm
          rcases List.mem_cons.mp hdm with h | h
          · subst h; exact F.lt_asymm h4
          · exact h5 d h
      | false =>
        have hp : pickLoop M e ray (t :: rest) minD best =
            pickLoop M e ray rest minD best := by
          simp [pickLoop, hrt, hlt]
        rcases ih minD best with ⟨h1, h2⟩ | ⟨r, h1, h2, ⟨t2, ht2, h3⟩, h4, h5⟩
        · left
          refine ⟨by rw [hp]; exact h1, ?_⟩
          rw [hd]
          intro d hdm
          rcases List.mem_cons.mp hdm with h | h
          · subst h; exact hlt
          · exact h2 d h
        · right
          refine ⟨r, by rw [hp]; exact h1, h2,
            ⟨t2, List.mem_cons_of_mem t ht2, h3⟩, h4, ?_⟩
          rw [hd]
          intro d hdm
          rcases List.mem_cons.mp hdm with h | h
          · subst h
            cases hc : F.lt (distOf M ray inter) r.distance with
            | false => rfl
            | true =>
              have hcontr := F.lt_trans hc h4
              rw [hcontr] at hlt
              exact Bool.noConfusion hlt
          · exact h5 d h

/-- Specification of the closest pick of a mesh: it is a hit of one of
the triangles, its distance is the recorded hit distance, it beats
`f32::MAX`, and no hit of the triangle list is strictly closer. -/
theorem closestPick_spec (M : RaycastModel) (e : Entity) (ray : Ray3D)
    (tris : List Triangle) (r : PickIntersection)
    (h : closestPick M e ray tris = some r) :
    r.entity = e ∧
    (∃ t ∈ tris, M.rti ray t = some r.intersection ∧
      r.distance = distOf M ray r.intersection) ∧
    F.lt r.distance f32MAX = true ∧
    ∀ d ∈ hitDists M ray tris, F.lt d r.distance = false := by
  unfold closestPick at h
  rcases pickLoop_spec M e ray tris f32MAX none with ⟨h1, _⟩ | ⟨r2, h1, h2, h3, h4, h5⟩
  · rw [h1] at h
    exact Option.noConfusion h
  · rw [h1] at h
    injection h with h
    subst h
    exact ⟨h2, h3, h4, h5⟩

/-- Membership in the relevant-ray list implies group membership and a
registered ray. -/
theorem pickRaysOf_mem {ray_map : RayMap} {groups : List PickingGroup}
    {g : PickingGroup} {ray : Ray3D}
    (h : (g, ray) ∈ pickRaysOf ray_map groups) :
    g ∈ groups ∧ alGet ray_map g = some ray := by
  unfold pickRaysOf at h
  rcases List.mem_filterMap.mp h with ⟨g0, hg0, hmap⟩
  cases hget : alGet ray_map g0 with
  | none => rw [hget] at hmap; exact Option.noConfusion hmap
  | some r0 =>
    rw [hget] at hmap
    injection hmap with hmap
    injection hmap with h1 h2
    subst h1
    subst h2
    exact ⟨hg0, hget⟩

/-- Records in the map after the per-mesh recording loop: either already
present before it, or the closest pick of one of the processed rays,
filed under that ray's group. -/
theorem recordHits_mem (M : RaycastModel) (ent : Entity) (tris : List Triangle) :
    ∀ (prs : List (PickingGroup × Ray3D)) (acc : ListMap) (g : PickingGroup)
      (l : List PickIntersection),
      alGet (recordHits M ent tris prs acc) g = some l →
      ∀ r ∈ l,
        (∃ l0, alGet acc g = some l0 ∧ r ∈ l0) ∨
        ∃ gr ∈ prs, gr.1 = g ∧ closestPick M ent gr.2 tris = some r := by
  intro prs
  induction prs with
  | nil =>
    intro acc g l hget r hr
    left
    exact ⟨l, hget, hr⟩
  | cons gr0 rest ih =>
    intro acc g l hget r hr
    cases hcp : closestPick M ent gr0.2 tris with
    | none =>
      have hstep : recordHits M ent tris (gr0 :: rest) acc =
          recordHits M ent tris rest acc := by
        simp [recordHits, hcp]
      rw [hstep] at hget
      rcases ih acc g l hget r hr with h | ⟨gr, hgr, h1, h2⟩
      · left; exact h
      · right; exact ⟨gr, List.mem_cons_of_mem gr0 hgr, h1, h2⟩
    | some pick =>
      have hstep : recordHits M ent tris (gr0 :: rest) acc =
          recordHits M ent tris rest (appendPick acc gr0.1 pick) := by
        simp [recordHits, hcp]
      rw [hstep] at hget
      rcases ih (appendPick acc gr0.1 pick) g l hget r hr with ⟨l0, hl0, hrl0⟩ | ⟨gr, hgr, h1, h2⟩
      · rw [alGet_appendPick] at hl0
        by_cases hgg : g = gr0.1
        · rw [if_pos hgg] at hl0
          injection hl0 with hl0
          subst hl0
          rcases List.mem_append.mp hrl0 with hmem | hmem
          · rw [← hgg] at hmem
            cases hget0 : alGet acc g with
            | none =>
              rw [hget0] at hmem
              simp at hmem
            | some lold =>
              left
              refine ⟨lold, rfl, ?_⟩
              rw [hget0] at hmem
              simpa using hmem
          · right
            have : r = pick := by simpa using hmem
            subst this
            exact ⟨gr0, List.mem_cons_self gr0 rest, hgg.symm, hcp⟩
        · rw [if_neg hgg] at hl0
          left
          exact ⟨l0, hl0, hrl0⟩
      · right
        exact ⟨gr, List.mem_cons_of_mem gr0 hgr, h1, h2⟩

/-- Records added by processing one mesh entry carry full provenance
from that entry. -/
theorem processMesh_mem (M : RaycastModel) (ray_map : RayMap) (acc : ListMap)
    (e : MeshEntry) (acc2 : ListMap)
    (h : processMesh M ray_map acc e = Except.ok acc2) :
    ∀ g l, alGet acc2 g = some l → ∀ r ∈ l,
      (∃ l0, alGet acc g = some l0 ∧ r ∈ l0) ∨ Provenance M ray_map [e] g r := by
  intro g l hget r hr
  cases hvis : e.is_visible with
  | false =>
    simp only [processMesh, hvis, if_pos] at h
    injection h with h
    subst h
    left
    exact ⟨l, hget, hr⟩
  | true =>
    cases hpr : (pickRaysOf ray_map e.pickable.group).isEmpty with
    | true =>
      simp only [processMesh, hvis, hpr] at h
      simp at h
      subst h
      left
      exact ⟨l, hget, hr⟩
    | false =>
      cases hm : e.mesh with
      | none =>
        simp only [processMesh, hvis, hpr, hm] at h
        simp at h
        subst h
        left
        exact ⟨l, hget, hr⟩
      | some mesh =>
        by_cases htop : mesh.primitive_topology = PrimitiveTopology.TriangleList
        · cases hidx : mesh.indices with
          | none =>
            simp only [processMesh, hvis, hpr, hm, htop, hidx] at h
            simp at h
          | some indices =>
            cases hwt : worldTris e.transform mesh.positions indices with
            | none =>
              simp only [processMesh, hvis, hpr, hm, htop, hidx, hwt] at h
              simp at h
            | some tris =>
              simp only [processMesh, hvis, hpr, hm, htop, hidx, hwt] at h
              simp only [ne_eq, not_true_eq_false, if_false, Bool.false_eq_true,
                Bool.true_eq_false] at h
              injection h with h
              subst h
              rcases recordHits_mem M e.entity tris (pickRaysOf ray_map e.pickable.group)
                  acc g l hget r hr with hold | ⟨gr, hgr, hg1, hcp⟩
              · left; exact hold
              · right
                obtain ⟨g0, ray0⟩ := gr
                simp only at hg1
                subst hg1
                rcases pickRaysOf_mem hgr with ⟨hgmem, hray⟩
                rcases closestPick_spec M e.entity ray0 tris r hcp with
                  ⟨hent, ⟨t, ht, hti, hdist⟩, _, hmin⟩
                exact ⟨e, by simp, hent.symm, hvis, hgmem, ray0, hray,
                  mesh, indices, tris, hm, htop, hidx, hwt,
                  t, ht, hti, hdist, hmin⟩
        · simp only [processMesh, hvis, hpr, hm, htop, ne_eq, not_false_eq_true,
            if_true, Bool.false_eq_true, Bool.true_eq_false, if_false] at h
          injection h with h
          subst h
          left
          exact ⟨l, hget, hr⟩

/-- Provenance is monotone in the query list. -/
theorem Provenance_mono {M : RaycastModel} {ray_map : RayMap}
    {q q2 : List MeshEntry} {g : PickingGroup} {r : PickIntersection}
    (h : Provenance M ray_map q g r) (hsub : ∀ x ∈ q, x ∈ q2) :
    Provenance M ray_map q2 g r := by
  rcases h with ⟨e, he, rest⟩
  exact ⟨e, hsub e he, rest⟩

/-- Records in the map after the whole mesh loop: either present before
it, or with provenance from one of the scanned entries. -/
theorem scanMeshes_mem (M : RaycastModel) (ray_map : RayMap) :
    ∀ (es : List MeshEntry) (acc out : ListMap),
      scanMeshes M ray_map es acc = Except.ok out →
      ∀ g l, alGet out g = some l → ∀ r ∈ l,
        (∃ l0, alGet acc g = some l0 ∧ r ∈ l0) ∨ Provenance M ray_map es g r := by
  intro es
  induction es with
  | nil =>
    intro acc out h g l hget r hr
    rw [scanMeshes] at h
    injection h with h
    subst h
    left
    exact ⟨l, hget, hr⟩
  | cons e rest ih =>
    intro acc out h g l hget r hr
    rw [scanMeshes] at h
    cases hpm : processMesh M ray_map acc e with
    | error s => rw [hpm] at h; exact Except.noConfusion h
    | ok acc1 =>
      rw [hpm] at h
      rcases ih acc1 out h g l hget r hr with ⟨l0, hl0, hrl0⟩ | hprov
      · rcases processMesh_mem M ray_map acc e acc1 hpm g l0 hl0 r hrl0 with hold | hprov
        · left; exact hold
        · right
          exact Provenance_mono hprov (by intro x hx; simp at hx; simp [hx])
      · right
        exact Provenance_mono hprov (by intro x hx; exact List.mem_cons_of_mem e hx)

/-- Appending a pick changes exactly one group's count, by exactly one
when the entity matches. -/
theorem countIn_appendPick (m : ListMap) (g : PickingGroup) (p : PickIntersection)
    (g2 : PickingGroup) (ent : Entity) :
    countIn (appendPick m g p) g2 ent =
      countIn m g2 ent + (if g2 = g ∧ p.entity = ent then 1 else 0) := by
  unfold countIn
  rw [alGet_appendPick]
  by_cases hg : g2 = g
  · subst hg
    by_cases hpe : p.entity = ent
    · simp [hpe, List.filter_append]
    · simp [hpe, List.filter_append]
  · simp [hg]

/-- The recording loop adds at most one record per occurrence of the
group among the processed rays, and only for the scanned entity. -/
theorem countIn_recordHits (M : RaycastModel) (ent0 : Entity) (tris : List Triangle) :
    ∀ (prs : List (PickingGroup × Ray3D)) (acc : ListMap) (g : PickingGroup)
      (ent : Entity),
      countIn (recordHits M ent0 tris prs acc) g ent ≤
        countIn acc g ent +
          (if ent0 = ent then ((prs.map Prod.fst).count g) else 0) := by
  intro prs
  induction prs with
  | nil =>
    intro acc g ent
    simp [recordHits]
  | cons gr rest ih =>
    intro acc g ent
    have hle : List.count g (rest.map Prod.fst) ≤
        List.count g ((gr :: rest).map Prod.fst) := by
      simp only [List.map_cons, List.count_cons]
      split <;> omega
    cases hcp : closestPick M ent0 gr.2 tris with
    | none =>
      have hstep : recordHits M ent0 tris (gr :: rest) acc =
          recordHits M ent0 tris rest acc := by
        simp [recordHits, hcp]
      rw [hstep]
      refine le_trans (ih acc g ent) ?_
      by_cases he : ent0 = ent
      · simp only [he, if_true]
        exact Nat.add_le_add_left hle _
      · simp [he]
    | some pick =>
      have hpe : pick.entity = ent0 :=
        (closestPick_spec M ent0 gr.2 tris pick hcp).1
      have hstep : recordHits M ent0 tris (gr :: rest) acc =
          recordHits M ent0 tris rest (appendPick acc gr.1 pick) := by
        simp [recordHits, hcp]
      rw [hstep]
      refine le_trans (ih (appendPick acc gr.1 pick) g ent) ?_
      rw [countIn_appendPick]
      by_cases he : ent0 = ent
      · subst he
        simp only [if_true, List.map_cons, List.count_cons, hpe]
        by_cases hg : g = gr.1
        · subst hg
          simp only [and_true, if_pos rfl, beq_self_eq_true, if_true]
          omega
        · have hgr : (gr.1 == g) = false := by
            simp only [beq_eq_false_iff_ne, ne_eq]
            intro hc
            exact hg hc.symm
          simp only [hg, false_and, if_false, hgr]
          omega
      · have hc1 : ¬(g = gr.1 ∧ pick.entity = ent) := by
          rintro ⟨_, hc⟩
          rw [hpe] at hc
          exact he hc
        simp only [hc1, if_false, he]
        omega

/-- The relevant-ray groups are the mesh's groups filtered by having a
ray this tick. -/
theorem pickRaysOf_map_fst (ray_map : RayMap) (groups : List PickingGroup) :
    (pickRaysOf ray_map groups).map Prod.fst =
      groups.filter (fun g => (alGet ray_map g).isSome) := by
  induction groups with
  | nil => simp [pickRaysOf]
  | cons g0 t ih =>
    cases hget : alGet ray_map g0 with
    | none =>
      simp [pickRaysOf, List.filterMap_cons, hget, List.filter_cons] at ih ⊢
      exact ih
    | some r =>
      simp [pickRaysOf, List.filterMap_cons, hget, List.filter_cons] at ih ⊢
      exact ih

/-- Counting an element in a filtered list never exceeds the original. -/
theorem count_filter_le (g : PickingGroup) (p : PickingGroup → Bool)
    (l : List PickingGroup) : List.count g (l.filter p) ≤ List.count g l := by
  induction l with
  | nil => simp
  | cons a t ih =>
    rw [List.filter_cons]
    by_cases hp : p a = true
    · simp only [hp, if_true, List.count_cons]
      split <;> omega
    · simp only [hp]
      simp only [Bool.false_eq_true, if_false, List.count_cons]
      split <;> omega

/-- Processing one mesh entry adds at most `count g` of the entry's group
list many records for the entry's entity, and none for other entities. -/
theorem processMesh_count (M : RaycastModel) (ray_map : RayMap) (acc : ListMap)
    (e : MeshEntry) (acc2 : ListMap)
    (h : processMesh M ray_map acc e = Except.ok acc2) (g : PickingGroup)
    (ent : Entity) :
    countIn acc2 g ent ≤ countIn acc g ent +
      (if e.entity = ent then e.pickable.group.count g else 0) := by
  have hbase : ∀ m : ListMap, m = acc2 →
      countIn acc2 g ent ≤ countIn m g ent +
        (if e.entity = ent then e.pickable.group.count g else 0) := by
    intro m hm
    subst hm
    exact Nat.le_add_right _ _
  cases hvis : e.is_visible with
  | false =>
    simp only [processMesh, hvis, if_pos] at h
    injection h with h
    exact hbase acc h
  | true =>
    cases hpr : (pickRaysOf ray_map e.pickable.group).isEmpty with
    | true =>
      simp only [processMesh, hvis, hpr] at h
      simp at h
      exact hbase acc h
    | false =>
      cases hm : e.mesh with
      | none =>
        simp only [processMesh, hvis, hpr, hm] at h
        simp at h
        exact hbase acc h
      | some mesh =>
        by_cases htop : mesh.primitive_topology = PrimitiveTopology.TriangleList
        · cases hidx : mesh.indices with
          | none =>
            simp only [processMesh, hvis, hpr, hm, htop, hidx] at h
            simp at h
          | some indices =>
            cases hwt : worldTris e.transform mesh.positions indices with
            | none =>
              simp only [processMesh, hvis, hpr, hm, htop, hidx, hwt] at h
              simp at h
            | some tris =>
              simp only [processMesh, hvis, hpr, hm, htop, hidx, hwt] at h
              simp only [ne_eq, not_true_eq_false, if_false, Bool.false_eq_true,
                Bool.true_eq_false] at h
              injection h with h
              subst h
              refine le_trans (countIn_recordHits M e.entity tris
                (pickRaysOf ray_map e.pickable.group) acc g ent) ?_
              by_cases he : e.entity = ent
              · simp only [he, if_true]
                refine Nat.add_le_add_left ?_ _
                rw [pickRaysOf_map_fst]
                exact count_filter_le g _ e.pickable.group
              · simp [he]
        · simp only [processMesh, hvis, hpr, hm, htop, ne_eq, not_false_eq_true,
            if_true, Bool.false_eq_true, Bool.true_eq_false, if_false] at h
          injection h with h
          exact hbase acc h

/-- Contribution of the tail of a query. -/
theorem sumContrib_cons (e : MeshEntry) (q : List MeshEntry) (g : PickingGroup)
    (ent : Entity) :
    sumContrib (e :: q) g ent =
      (if e.entity = ent then e.pickable.group.count g else 0) + sumContrib q g ent := by
  simp [sumContrib]

/-- A query none of whose entries carry the entity contributes nothing. -/
theorem sumContrib_eq_zero {q : List MeshEntry} {g : PickingGroup} {ent : Entity}
    (h : ∀ e ∈ q, e.entity ≠ ent) : sumContrib q g ent = 0 := by
  induction q with
  | nil => simp [sumContrib]
  | cons e t ih =>
    rw [sumContrib_cons]
    have he : e.entity ≠ ent := h e (List.mem_cons_self e t)
    rw [if_neg he, ih (fun x hx => h x (List.mem_cons_of_mem e hx))]

/-- With pairwise distinct entities and no duplicated group in the
relevant entry's group list, a query contributes at most one record. -/
theorem sumContrib_le_one {q : List MeshEntry} {g : PickingGroup} {ent : Entity}
    (hnd : (q.map (fun e => e.entity)).Nodup)
    (hcnt : ∀ e ∈ q, e.entity = ent → e.pickable.group.count g ≤ 1) :
    sumContrib q g ent ≤ 1 := by
  induction q with
  | nil => simp [sumContrib]
  | cons e t ih =>
    rw [sumContrib_cons]
    have hdecomp : (∀ x ∈ t, ¬ x.entity = e.entity) ∧
        (t.map (fun x => x.entity)).Nodup := by
      simpa using hnd
    by_cases he : e.entity = ent
    · have hz : sumContrib t g ent = 0 := by
        refine sumContrib_eq_zero ?_
        intro x hx hc
        exact hdecomp.1 x hx (by rw [hc, ← he])
      rw [hz, if_pos he]
      simpa using hcnt e (List.mem_cons_self e t) he
    · rw [if_neg he]
      simp only [Nat.zero_add]
      exact ih hdecomp.2 (fun x hx hxe => hcnt x (List.mem_cons_of_mem e hx) hxe)

/-- The whole mesh loop adds at most `sumContrib` records per group and
entity. -/
theorem scanMeshes_count (M : RaycastModel) (ray_map : RayMap) :
    ∀ (es : List MeshEntry) (acc out : ListMap),
      scanMeshes M ray_map es acc = Except.ok out →
      ∀ g ent, countIn out g ent ≤ countIn acc g ent + sumContrib es g ent := by
  intro es
  induction es with
  | nil =>
    intro acc out h g ent
    rw [scanMeshes] at h
    injection h with h
    subst h
    simp [sumContrib]
  | cons e rest ih =>
    intro acc out h g ent
    rw [scanMeshes] at h
    cases hpm : processMesh M ray_map acc e with
    | error s => rw [hpm] at h; exact Except.noConfusion h
    | ok acc1 =>
      rw [hpm] at h
      have h1 := ih acc1 out h g ent
      have h2 := processMesh_count M ray_map acc e acc1 hpm g ent
      rw [sumContrib_cons]
      omega

/-- The recording loop never stores an empty list. -/
theorem recordHits_ne_nil (M : RaycastModel) (ent : Entity) (tris : List Triangle) :
    ∀ (prs : List (PickingGroup × Ray3D)) (acc : ListMap),
      (∀ g l, alGet acc g = some l → l ≠ []) →
      ∀ g l, alGet (recordHits M ent tris prs acc) g = some l → l ≠ [] := by
  intro prs
  induction prs with
  | nil =>
    intro acc hacc g l hget
    exact hacc g l hget
  | cons gr rest ih =>
    intro acc hacc g l hget
    cases hcp : closestPick M ent gr.2 tris with
    | none =>
      rw [show recordHits M ent tris (gr :: rest) acc =
        recordHits M ent tris rest acc from by simp [recordHits, hcp]] at hget
      exact ih acc hacc g l hget
    | some pick =>
      rw [show recordHits M ent tris (gr :: rest) acc =
        recordHits M ent tris rest (appendPick acc gr.1 pick) from by
          simp [recordHits, hcp]] at hget
      refine ih (appendPick acc gr.1 pick) ?_ g l hget
      intro g2 l2 hget2
      rw [alGet_appendPick] at hget2
      by_cases hgg : g2 = gr.1
      · rw [if_pos hgg] at hget2
        injection hget2 with hget2
        subst hget2
        simp
      · rw [if_neg hgg] at hget2
        exact hacc g2 l2 hget2

/-- Processing a mesh entry never stores an empty list. -/
theorem processMesh_ne_nil (M : RaycastModel) (ray_map : RayMap) (acc : ListMap)
    (e : MeshEntry) (acc2 : ListMap)
    (h : processMesh M ray_map acc e = Except.ok acc2)
    (hacc : ∀ g l, alGet acc g = some l → l ≠ []) :
    ∀ g l, alGet acc2 g = some l → l ≠ [] := by
  cases hvis : e.is_visible with
  | false =>
    simp only [processMesh, hvis, if_pos] at h
    injection h with h
    subst h
    exact hacc
  | true =>
    cases hpr : (pickRaysOf ray_map e.pickable.group).isEmpty with
    | true =>
      simp only [processMesh, hvis, hpr] at h
      simp at h
      subst h
      exact hacc
    | false =>
      cases hm : e.mesh with
      | none =>
        simp only [processMesh, hvis, hpr, hm] at h
        simp at h
        subst h
        exact hacc
      | some mesh =>
        by_cases htop : mesh.primitive_topology = PrimitiveTopology.TriangleList
        · cases hidx : mesh.indices with
          | none =>
            simp only [processMesh, hvis, hpr, hm, htop, hidx] at h
            simp at h
          | some indices =>
            cases hwt : worldTris e.transform mesh.positions indices with
            | none =>
              simp only [processMesh, hvis, hpr, hm, htop, hidx, hwt] at h
              simp at h
            | some tris =>
              simp only [processMesh, hvis, hpr, hm, htop, hidx, hwt] at h
              simp only [ne_eq, not_true_eq_false, if_false, Bool.false_eq_true,
                Bool.true_eq_false] at h
              injection h with h
              subst h
              exact recordHits_ne_nil M e.entity tris _ acc hacc
        · simp only [processMesh, hvis, hpr, hm, htop, ne_eq, not_false_eq_true,
            if_true, Bool.false_eq_true, Bool.true_eq_false, if_false] at h
          injection h with h
          subst h
          exact hacc

/-- The whole mesh loop never stores an empty list. -/
theorem scanMeshes_ne_nil (M : RaycastModel) (ray_map : RayMap) :
    ∀ (es : List MeshEntry) (acc out : ListMap),
      scanMeshes M ray_map es acc = Except.ok out →
      (∀ g l, alGet acc g = some l → l ≠ []) →
      ∀ g l, alGet out g = some l → l ≠ [] := by
  intro es
  induction es with
  | nil =>
    intro acc out h hacc
    rw [scanMeshes] at h
    injection h with h
    subst h
    exact hacc
  | cons e rest ih =>
    intro acc out h hacc
    rw [scanMeshes] at h
    cases hpm : processMesh M ray_map acc e with
    | error s => rw [hpm] at h; exact Except.noConfusion h
    | ok acc1 =>
      rw [hpm] at h
      exact ih acc1 out h (processMesh_ne_nil M ray_map acc e acc1 hpm hacc)

/-- Sorting preserves nonemptiness. -/
theorem sortPicks_ne_nil {l : List PickIntersection} (h : l ≠ []) :
    sortPicks l ≠ [] := by
  intro hc
  apply h
  have hlen := (sortPicks_perm l).length_eq
  rw [hc] at hlen
  simp at hlen
  exact List.length_eq_zero.mp hlen.symm

/-- A mesh entry panics the scanner exactly under `meshPanics`. -/
theorem processMesh_isErr (M : RaycastModel) (ray_map : RayMap) (acc : ListMap)
    (e : MeshEntry) :
    isErr (processMesh M ray_map acc e) = meshPanics ray_map e := by
  cases hvis : e.is_visible with
  | false => simp [processMesh, meshPanics, isErr, hvis]
  | true =>
    cases hpr : (pickRaysOf ray_map e.pickable.group).isEmpty with
    | true => simp [processMesh, meshPanics, isErr, hvis, hpr]
    | false =>
      cases hm : e.mesh with
      | none => simp [processMesh, meshPanics, isErr, hvis, hpr, hm]
      | some mesh =>
        by_cases htop : mesh.primitive_topology = PrimitiveTopology.TriangleList
        · cases hidx : mesh.indices with
          | none => simp [processMesh, meshPanics, isErr, hvis, hpr, hm, htop, hidx]
          | some indices =>
            cases hwt : worldTris e.transform mesh.positions indices with
            | none => simp [processMesh, meshPanics, isErr, hvis, hpr, hm, htop, hidx, hwt]
            | some tris => simp [processMesh, meshPanics, isErr, hvis, hpr, hm, htop, hidx, hwt]
        · have hbeq : (mesh.primitive_topology == PrimitiveTopology.TriangleList) = false := by
            simp [htop]
          simp [processMesh, meshPanics, isErr, hvis, hpr, hm, htop, hbeq]

/-- The mesh loop panics exactly when some entry panics. -/
theorem scanMeshes_isErr (M : RaycastModel) (ray_map : RayMap) :
    ∀ (es : List MeshEntry) (acc : ListMap),
      isErr (scanMeshes M ray_map es acc) =
        es.any (fun e => meshPanics ray_map e) := by
  intro es
  induction es with
  | nil => intro acc; simp [scanMeshes, isErr]
  | cons e rest ih =>
    intro acc
    rw [scanMeshes]
    cases hpm : processMesh M ray_map acc e with
    | error s =>
      have : meshPanics ray_map e = true := by
        rw [← processMesh_isErr M ray_map acc e, hpm]
        rfl
      simp [isErr, this]
    | ok acc1 =>
      have : meshPanics ray_map e = false := by
        rw [← processMesh_isErr M ray_map acc e, hpm]
        rfl
      simp [this, ih acc1]

/-- The scanner panics exactly when the ray map is non-empty and some
query entry panics. -/
theorem pick_mesh_isErr (M : RaycastModel) (st : PickState) (query : List MeshEntry) :
    isErr (pick_mesh M st query) =
      (!st.ray_map.isEmpty && query.any (fun e => meshPanics st.ray_map e)) := by
  cases hre : st.ray_map.isEmpty with
  | true => simp [pick_mesh, hre, isErr]
  | false =>
    rw [pick_mesh, hre]
    simp only [Bool.false_eq_true, if_false, Bool.not_false, Bool.true_and]
    cases hscan : scanMeshes M st.ray_map query [] with
    | error s =>
      have := scanMeshes_isErr M st.ray_map query []
      rw [hscan] at this
      simp [isErr] at this ⊢
      exact this
    | ok m =>
      have := scanMeshes_isErr M st.ray_map query []
      rw [hscan] at this
      simp [isErr] at this ⊢
      exact this

/-- A duplicate-group insertion always reports the duplicate-group panic. -/
theorem insertRay_dup {acc : RayMap} {g0 : PickingGroup} (ray : Ray3D) (n : Nat)
    (h : (alGet acc g0).isSome = true) :
    insertRay acc g0 ray n = Except.error (dupMsg n) := by
  simp [insertRay, h]

/-- A successful insertion preserves every present key. -/
theorem insertRay_mono {acc acc2 : RayMap} {g0 : PickingGroup} {ray : Ray3D} {n : Nat}
    (h : insertRay acc g0 ray n = Except.ok acc2) (g : PickingGroup)
    (hg : (alGet acc g).isSome = true) : (alGet acc2 g).isSome = true := by
  unfold insertRay at h
  by_cases hp : (alGet acc g0).isSome = true
  · rw [if_pos hp] at h
    exact Except.noConfusion h
  · rw [if_neg hp] at h
    injection h with h
    subst h
    rw [alGet_append]
    cases hget : alGet acc g with
    | none => rw [hget] at hg; simp at hg
    | some v => simp

/-- A successful insertion makes its own key present. -/
theorem insertRay_some {acc acc2 : RayMap} {g0 : PickingGroup} {ray : Ray3D} {n : Nat}
    (h : insertRay acc g0 ray n = Except.ok acc2) :
    (alGet acc2 g0).isSome = true := by
  unfold insertRay at h
  by_cases hp : (alGet acc g0).isSome = true
  · rw [if_pos hp] at h
    exact Except.noConfusion h
  · rw [if_neg hp] at h
    injection h with h
    subst h
    rw [alGet_append]
    cases hget : alGet acc g0 with
    | none => simp [alGet]
    | some v => rw [hget] at hp; simp at hp

/-- Every `build_rays` arm either skips (returning the map unchanged),
panics, or performs an insertion for its own group. -/
theorem buildRaysStep_shape (windows : WindowId → Option Window) (acc : RayMap)
    (s : PickingSource) :
    buildRaysStep windows acc s = Except.ok acc ∨
    (∃ msg, buildRaysStep windows acc s = Except.error msg) ∨
    (∃ ray n, s.group = PickingGroup.Group n ∧
      buildRaysStep windows acc s = insertRay acc s.group ray n) := by
  cases hg : s.group with
  | None => left; simp [buildRaysStep, hg]
  | Group n =>
    cases hm : s.pick_method with
    | Cursor window_id =>
      cases hc : s.camera with
      | none =>
        right; left
        exact ⟨noCameraMsg n, by simp [buildRaysStep, hg, hm, hc]⟩
      | some proj =>
        cases he : s.cursor_event with
        | none => left; simp [buildRaysStep, hg, hm, hc, he]
        | some ev =>
          by_cases hid : ev.id = window_id
          · cases hw : windows window_id with
            | none =>
              right; left
              exact ⟨windowMsg, by simp [buildRaysStep, hg, hm, hc, he, hid, hw]⟩
            | some w =>
              right; right
              simp only [buildRaysStep, hg, hm, hc, he, hid, hw, if_pos]
              exact ⟨_, n, rfl, rfl⟩
          · left; simp [buildRaysStep, hg, hm, hc, he, hid]
    | ScreenSpace v =>
      cases hc : s.camera with
      | none =>
        right; left
        exact ⟨noCameraMsg n, by simp [buildRaysStep, hg, hm, hc]⟩
      | some proj =>
        right; right
        simp only [buildRaysStep, hg, hm, hc]
        exact ⟨_, n, rfl, rfl⟩
    | Center =>
      right; right
      simp only [buildRaysStep, hg, hm]
      exact ⟨_, n, rfl, rfl⟩

/-- A source that resolves a ray reaches its insertion. -/
theorem buildRaysStep_resolved (windows : WindowId → Option Window)
    (s : PickingSource) (n : Nat) (hg : s.group = PickingGroup.Group n)
    (hres : resolvesRay windows s = true) (acc : RayMap) :
    ∃ ray, buildRaysStep windows acc s = insertRay acc s.group ray n := by
  cases hm : s.pick_method with
  | Cursor window_id =>
    rw [resolvesRay, hg, hm] at hres
    simp only [Bool.and_eq_true] at hres
    obtain ⟨hcam, hev⟩ := hres
    cases hc : s.camera with
    | none => rw [hc] at hcam; simp at hcam
    | some proj =>
      cases he : s.cursor_event with
      | none => rw [he] at hev; simp at hev
      | some ev =>
        rw [he] at hev
        simp only [Bool.and_eq_true, beq_iff_eq] at hev
        obtain ⟨hid, hwin⟩ := hev
        cases hw : windows window_id with
        | none => rw [hw] at hwin; simp at hwin
        | some w =>
          simp only [buildRaysStep, hg, hm, hc, he, hid, hw, if_pos]
          exact ⟨_, rfl⟩
  | ScreenSpace v =>
    rw [resolvesRay, hg, hm] at hres
    cases hc : s.camera with
    | none => rw [hc] at hres; simp at hres
    | some proj =>
      simp only [buildRaysStep, hg, hm, hc]
      exact ⟨_, rfl⟩
  | Center =>
    simp only [buildRaysStep, hg, hm]
    exact ⟨_, rfl⟩

/-- A resolving source whose group is already occupied panics with the
duplicate-group message. -/
theorem buildRaysStep_dup (windows : WindowId → Option Window) (acc : RayMap)
    (s : PickingSource) (n : Nat) (hg : s.group = PickingGroup.Group n)
    (hres : resolvesRay windows s = true)
    (hdup : (alGet acc s.group).isSome = true) :
    buildRaysStep windows acc s = Except.error (dupMsg n) := by
  obtain ⟨ray, hstep⟩ := buildRaysStep_resolved windows s n hg hres acc
  rw [hstep]
  exact insertRay_dup ray n hdup

/-- A resolving source that succeeds leaves its group present. -/
theorem buildRaysStep_resolved_some (windows : WindowId → Option Window)
    {acc acc2 : RayMap} (s : PickingSource) (n : Nat)
    (hg : s.group = PickingGroup.Group n) (hres : resolvesRay windows s = true)
    (hok : buildRaysStep windows acc s = Except.ok acc2) :
    (alGet acc2 s.group).isSome = true := by
  obtain ⟨ray, hstep⟩ := buildRaysStep_resolved windows s n hg hres acc
  rw [hstep] at hok
  exact insertRay_some hok

/-- A successful arm preserves every present key of the ray map. -/
theorem buildRaysStep_mono (windows : WindowId → Option Window)
    {acc acc2 : RayMap} (s : PickingSource)
    (hok : buildRaysStep windows acc s = Except.ok acc2) (g : PickingGroup)
    (hg : (alGet acc g).isSome = true) : (alGet acc2 g).isSome = true := by
  rcases buildRaysStep_shape windows acc s with h | ⟨msg, h⟩ | ⟨ray, n, _, h⟩
  · rw [h] at hok
    injection hok with hok
    subst hok
    exact hg
  · rw [h] at hok
    exact Except.noConfusion hok
  · rw [h] at hok
    exact insertRay_mono hok g hg

/-- The source loop over a concatenation runs the two halves in order. -/
theorem buildRaysGo_append (windows : WindowId → Option Window)
    (a b : List PickingSource) :
    ∀ acc, buildRaysGo windows (a ++ b) acc =
      match buildRaysGo windows a acc with
      | Except.error e => Except.error e
      | Except.ok m => buildRaysGo windows b m := by
  induction a with
  | nil => intro acc; simp [buildRaysGo]
  | cons s rest ih =>
    intro acc
    rw [List.cons_append, buildRaysGo, buildRaysGo]
    cases hstep : buildRaysStep windows acc s with
    | error e => rfl
    | ok acc2 => exact ih acc2

/-- The source loop preserves every present key of the ray map. -/
theorem buildRaysGo_mono (windows : WindowId → Option Window) :
    ∀ (l : List PickingSource) (acc out : RayMap),
      buildRaysGo windows l acc = Except.ok out →
      ∀ g, (alGet acc g).isSome = true → (alGet out g).isSome = true := by
  intro l
  induction l with
  | nil =>
    intro acc out h g hg
    rw [buildRaysGo] at h
    injection h with h
    subst h
    exact hg
  | cons s rest ih =>
    intro acc out h g hg
    rw [buildRaysGo] at h
    cases hstep : buildRaysStep windows acc s with
    | error e => rw [hstep] at h; exact Except.noConfusion h
    | ok acc2 =>
      rw [hstep] at h
      exact ih acc2 out h g (buildRaysStep_mono windows s hstep g hg)

/-- A non-empty ray map is not `isEmpty`. -/
theorem ray_map_isEmpty_false {st : PickState} (h : st.ray_map ≠ []) :
    st.ray_map.isEmpty = false := by
  cases hm : st.ray_map with
  | nil => exact absurd hm h
  | cons a t => rfl

/-- A successful scan with rays decomposes into the mesh loop from the
cleared map followed by the sort. -/
theorem pick_mesh_ok_decomp {M : RaycastModel} {st : PickState}
    {query : List MeshEntry} {st' : PickState} (hne : st.ray_map ≠ [])
    (hok : pick_mesh M st query = Except.ok st') :
    ∃ m, scanMeshes M st.ray_map query [] = Except.ok m ∧
      st' = ⟨st.ray_map, sortLists m⟩ := by
  have hre := ray_map_isEmpty_false hne
  rw [pick_mesh, hre] at hok
  simp only [Bool.false_eq_true, if_false] at hok
  cases hscan : scanMeshes M st.ray_map query [] with
  | error s => rw [hscan] at hok; exact Except.noConfusion hok
  | ok m =>
    rw [hscan] at hok
    injection hok with hok
    exact ⟨m, rfl, hok.symm⟩

/-- A group list read after a successful scan is the sorted version of a
list produced by the mesh loop. -/
theorem pick_mesh_list_decomp {M : RaycastModel} {st : PickState}
    {query : List MeshEntry} {st' : PickState} (hne : st.ray_map ≠ [])
    (hok : pick_mesh M st query = Except.ok st') (g : PickingGroup)
    (l : List PickIntersection) (hl : PickState.list st' g = some l) :
    ∃ m l0, scanMeshes M st.ray_map query [] = Except.ok m ∧
      alGet m g = some l0 ∧ l = sortPicks l0 := by
  obtain ⟨m, hscan, hst⟩ := pick_mesh_ok_decomp hne hok
  subst hst
  rw [PickState.list] at hl
  simp only at hl
  rw [alGet_sortLists] at hl
  cases hget : alGet m g with
  | none => rw [hget] at hl; simp at hl
  | some l0 =>
    rw [hget] at hl
    simp only [Option.map_some'] at hl
    injection hl with hl
    exact ⟨m, l0, hscan, hget, hl.symm⟩

/-- Claim C2: after a run of the scanner with a non-empty ray map, every
group's stored list is sorted ascending by distance — every adjacent pair
satisfies the comparator (never strictly greater) — and the comparator
maps every unordered distance pair (e.g. NaN) to `Equal` instead of
failing. -/
theorem C2_sorted_by_distance (M : RaycastModel) (st : PickState)
    (query : List MeshEntry) (st' : PickState) (hne : st.ray_map ≠ [])
    (hok : pick_mesh M st query = Except.ok st') :
    (∀ g l, PickState.list st' g = some l →
      List.Chain' (fun a b => lePick a b = true) l) ∧
    (∀ a b : PickIntersection, F.pcmp a.distance b.distance = none →
      cmpPick a b = Ordering.eq) := by
  constructor
  · intro g l hl
    obtain ⟨m, l0, _, _, hsort⟩ := pick_mesh_list_decomp hne hok g l hl
    subst hsort
    exact sortPicks_chain l0
  · intro a b h
    exact cmpPick_of_pcmp_none h

/-- Claim C3: after a run of the scanner with a non-empty ray map, every
record in a group's list originates from a query entry with that entity
whose `PickableMesh` group list contains the group, whose `Draw`
visibility was true, and whose mesh was intersected by that group's ray;
in particular, an invisible mesh never appears in any group's list. -/
theorem C3_record_provenance (M : RaycastModel) (st : PickState)
    (query : List MeshEntry) (st' : PickState) (hne : st.ray_map ≠ [])
    (hok : pick_mesh M st query = Except.ok st') :
    ∀ g l, PickState.list st' g = some l → ∀ r ∈ l,
      Provenance M st.ray_map query g r := by
  intro g l hl r hr
  obtain ⟨m, l0, hscan, hget, hsort⟩ := pick_mesh_list_decomp hne hok g l hl
  subst hsort
  have hr0 : r ∈ l0 := (sortPicks_perm l0).subset hr
  rcases scanMeshes_mem M st.ray_map query [] m hscan g l0 hget r hr0 with
    ⟨lz, hlz, _⟩ | hprov
  · rw [alGet] at hlz
    exact Option.noConfusion hlz
  · exact hprov

/-- Claim C4: if the ray map is empty, the scanner leaves the state
completely unchanged; if it is non-empty, the result does not depend on
the previous intersection map at all (the whole map, including groups
without a ray this tick, is cleared before scanning). -/
theorem C4_clear_or_noop (M : RaycastModel) (st : PickState)
    (query : List MeshEntry) :
    (st.ray_map = [] → pick_mesh M st query = Except.ok st) ∧
    (st.ray_map ≠ [] → ∀ lists : ListMap,
      pick_mesh M ⟨st.ray_map, lists⟩ query = pick_mesh M st query) := by
  constructor
  · intro h
    have : st.ray_map.isEmpty = true := by rw [h]; rfl
    simp [pick_mesh, this]
  · intro hne lists
    have hre := ray_map_isEmpty_false hne
    simp only [pick_mesh, hre, Bool.false_eq_true, if_false]

/-- Claim C9: re-running the scanner on its own output with the same
inputs returns that output unchanged (the scan is a function of the ray
map and the mesh query only, and the ray map is not modified). -/
theorem C9_idempotent (M : RaycastModel) (st : PickState)
    (query : List MeshEntry) (st1 : PickState)
    (hok : pick_mesh M st query = Except.ok st1) :
    pick_mesh M st1 query = Except.ok st1 := by
  cases hre : st.ray_map.isEmpty with
  | true =>
    rw [pick_mesh, hre] at hok
    simp only [if_true] at hok
    injection hok with hok
    subst hok
    rw [pick_mesh, hre]
    rfl
  | false =>
    rw [pick_mesh, hre] at hok
    simp only [Bool.false_eq_true, if_false] at hok
    cases hscan : scanMeshes M st.ray_map query [] with
    | error s => rw [hscan] at hok; exact Except.noConfusion hok
    | ok m =>
      rw [hscan] at hok
      injection hok with hok
      subst hok
      rw [pick_mesh]
      simp only [hre, Bool.false_eq_true, if_false, hscan]

/-- Claim C1 (amended): after a run of the scanner with a non-empty ray
map, for a mesh entity whose query entries list the group at most once
(and with the ECS guarantee of pairwise-distinct query entities), at most
one record for that entity appears in the group's list, and every record
of the list is the closest recorded hit of its own mesh: its distance is
minimal among the hit distances of that mesh's world-space triangles
under that group's ray. -/
theorem C1_at_most_one_closest (M : RaycastModel) (st : PickState)
    (query : List MeshEntry) (st' : PickState) (g : PickingGroup)
    (l : List PickIntersection) (ent : Entity) (hne : st.ray_map ≠ [])
    (hok : pick_mesh M st query = Except.ok st')
    (hnodup : (query.map (fun e => e.entity)).Nodup)
    (hcnt : ∀ e ∈ query, e.entity = ent → e.pickable.group.count g ≤ 1)
    (hl : PickState.list st' g = some l) :
    (l.filter (fun r => r.entity == ent)).length ≤ 1 ∧
    ∀ r ∈ l, Provenance M st.ray_map query g r := by
  obtain ⟨m, l0, hscan, hget, hsort⟩ := pick_mesh_list_decomp hne hok g l hl
  constructor
  · have hcount := scanMeshes_count M st.ray_map query [] m hscan g ent
    have hzero : countIn ([] : ListMap) g ent = 0 := by rfl
    rw [hzero] at hcount
    have hsum := sumContrib_le_one hnodup hcnt
    have hc0 : countIn m g ent = (l0.filter (fun r => r.entity == ent)).length := by
      rw [countIn, hget]
      rfl
    have hperm : (l.filter (fun r => r.entity == ent)).length =
        (l0.filter (fun r => r.entity == ent)).length := by
      subst hsort
      exact ((sortPicks_perm l0).filter _).length_eq
    omega
  · intro r hr
    subst hsort
    have hr0 : r ∈ l0 := (sortPicks_perm l0).subset hr
    rcases scanMeshes_mem M st.ray_map query [] m hscan g l0 hget r hr0 with
      ⟨lz, hlz, _⟩ | hprov
    · rw [alGet] at hlz
      exact Option.noConfusion hlz
    · exact hprov

/-- Claim C10: after a run of the scanner from a state whose stored lists
are all non-empty, every stored list is still non-empty (a group gets an
entry only when a record is appended), `top` answers exactly when `list`
does, and `top` is the head of `list`. -/
theorem C10_top_is_head (M : RaycastModel) (st : PickState)
    (query : List MeshEntry) (st' : PickState)
    (hinv : ∀ g l, PickState.list st g = some l → l ≠ [])
    (hok : pick_mesh M st query = Except.ok st') :
    (∀ g l, PickState.list st' g = some l → l ≠ []) ∧
    (∀ g, (PickState.top st' g).isSome = (PickState.list st' g).isSome) ∧
    (∀ g l, PickState.list st' g = some l → PickState.top st' g = l.head?) := by
  have hmain : ∀ g l, PickState.list st' g = some l → l ≠ [] := by
    cases hre : st.ray_map.isEmpty with
    | true =>
      rw [pick_mesh, hre] at hok
      simp only [if_true] at hok
      injection hok with hok
      subst hok
      exact hinv
    | false =>
      have hne : st.ray_map ≠ [] := by
        intro hc
        rw [hc] at hre
        exact Bool.noConfusion hre
      intro g l hl
      obtain ⟨m, l0, hscan, hget, hsort⟩ := pick_mesh_list_decomp hne hok g l hl
      subst hsort
      have hl0 : l0 ≠ [] := by
        refine scanMeshes_ne_nil M st.ray_map query [] m hscan ?_ g l0 hget
        intro g2 l2 hget2
        rw [alGet] at hget2
        exact Option.noConfusion hget2
      exact sortPicks_ne_nil hl0
  refine ⟨hmain, ?_, ?_⟩
  · intro g
    rw [PickState.top, PickState.list]
    cases hget : alGet st'.ordered_pick_list_map g with
    | none => rfl
    | some l =>
      have hl := hmain g l (by rw [PickState.list, hget])
      cases l with
      | nil => exact absurd rfl hl
      | cons a t => rfl
  · intro g l hl
    rw [PickState.top]
    rw [PickState.list] at hl
    rw [hl]

/-- Claim C7 (amended): a visible group-sharing mesh whose topology is
not a triangle list is skipped without error and without touching the
intersection map, while the scanner panics exactly when some query entry
is visible, shares a group with the ray map, and resolves to a
triangle-list mesh that either has no index buffer or has an index
outside its position buffer. -/
theorem C7_skip_vs_fatal (M : RaycastModel) (st : PickState)
    (query : List MeshEntry) (hne : st.ray_map ≠ []) :
    (∀ (acc : ListMap) (e : MeshEntry) (mesh : Mesh), e.mesh = some mesh →
      mesh.primitive_topology ≠ PrimitiveTopology.TriangleList →
      processMesh M st.ray_map acc e = Except.ok acc) ∧
    (isErr (pick_mesh M st query) = true ↔
      ∃ e ∈ query, meshPanics st.ray_map e = true) := by
  constructor
  · intro acc e mesh hm htop
    cases hvis : e.is_visible with
    | false => simp [processMesh, hvis]
    | true =>
      cases hpr : (pickRaysOf st.ray_map e.pickable.group).isEmpty with
      | true => simp [processMesh, hvis, hpr]
      | false => simp [processMesh, hvis, hpr, hm, htop]
  · rw [pick_mesh_isErr, ray_map_isEmpty_false hne]
    simp

/-- Claim C6 (amended): a cursor-follow source that has a camera is
skipped — ray map unchanged and no error — on a tick where it has no
pending cursor event, or where the event's window differs from the
configured one. -/
theorem C6_cursor_source_skipped (windows : WindowId → Option Window)
    (acc : RayMap) (s : PickingSource) (window_id : WindowId) (proj : Mat4)
    (hm : s.pick_method = PickingMethod.Cursor window_id)
    (hc : s.camera = some proj)
    (hev : s.cursor_event = none ∨
      ∃ ev, s.cursor_event = some ev ∧ ev.id ≠ window_id) :
    buildRaysStep windows acc s = Except.ok acc := by
  cases hg : s.group with
  | None => simp [buildRaysStep, hg]
  | Group n =>
    rcases hev with he | ⟨ev, he, hne⟩
    · simp [buildRaysStep, hg, hm, hc, he]
    · simp [buildRaysStep, hg, hm, hc, he, hne]

/-- Claim C5: a second resolving source for an already-occupied group
always halts the resolver with the duplicate-group panic naming the
group (for every pick method, since `resolvesRay` covers all three), and
whenever two sources with non-`None` groups both resolve a ray for the
same group in one tick, the whole resolver run halts with an error. -/
theorem C5_duplicate_group_fatal :
    (∀ (windows : WindowId → Option Window) (acc : RayMap) (s : PickingSource)
      (n : Nat), s.group = PickingGroup.Group n →
      resolvesRay windows s = true → (alGet acc s.group).isSome = true →
      buildRaysStep windows acc s = Except.error (dupMsg n)) ∧
    (∀ (windows : WindowId → Option Window) (l1 l2 l3 : List PickingSource)
      (s1 s2 : PickingSource) (n : Nat),
      s1.group = PickingGroup.Group n → s2.group = PickingGroup.Group n →
      resolvesRay windows s1 = true → resolvesRay windows s2 = true →
      isErr (build_rays windows (l1 ++ (s1 :: (l2 ++ (s2 :: l3))))) = true) := by
  constructor
  · intro windows acc s n hg hres hdup
    exact buildRaysStep_dup windows acc s n hg hres hdup
  · intro windows l1 l2 l3 s1 s2 n hg1 hg2 hres1 hres2
    rw [build_rays, buildRaysGo_append]
    cases h1 : buildRaysGo windows l1 [] with
    | error e => rfl
    | ok m1 =>
      simp only [buildRaysGo]
      cases hstep1 : buildRaysStep windows m1 s1 with
      | error e => rfl
      | ok m2 =>
        have hsome2 : (alGet m2 s1.group).isSome = true :=
          buildRaysStep_resolved_some windows s1 n hg1 hres1 hstep1
        change isErr (buildRaysGo windows (l2 ++ (s2 :: l3)) m2) = true
        rw [buildRaysGo_append]
        cases h2 : buildRaysGo windows l2 m2 with
        | error e => rfl
        | ok m3 =>
          have hsome3 : (alGet m3 s1.group).isSome = true :=
            buildRaysGo_mono windows l2 m2 m3 h2 s1.group hsome2
          have hsome3' : (alGet m3 s2.group).isSome = true := by
            rw [hg2, ← hg1]
            exact hsome3
          change isErr (buildRaysGo windows (s2 :: l3) m3) = true
          simp only [buildRaysGo]
          rw [buildRaysStep_dup windows m3 s2 n hg2 hres2 hsome3']
          rfl

/-- Claim C8: whenever a cursor source emits a ray, the emitted ray is
exactly the reference construction of the spec — pixel position scaled to
NDC by the window size, the NDC point at depth 1 unprojected through
`camera_transform * inverse(projection)`, origin the camera transform's
translation component, direction the unprojected point minus the
origin. -/
theorem C8_cursor_ray_reference (windows : WindowId → Option Window)
    (acc : RayMap) (s : PickingSource) (window_id : WindowId) (proj : Mat4)
    (ev : CursorMoved) (window : Window) (n : Nat)
    (hg : s.group = PickingGroup.Group n)
    (hm : s.pick_method = PickingMethod.Cursor window_id)
    (hc : s.camera = some proj)
    (he : s.cursor_event = some ev)
    (hid : ev.id = window_id)
    (hw : windows window_id = some window)
    (hfree : (alGet acc s.group).isSome = false) :
    buildRaysStep windows acc s =
      Except.ok (acc ++ [(s.group,
        specCursorRay window s.transform proj ev.position)]) := by
  rw [hg] at hfree ⊢
  simp only [buildRaysStep, hg, hm, hc, he, hid, hw, if_pos]
  rw [insertRay, hfree]
  simp only [Bool.false_eq_true, if_false]
  rfl

/-- Witness for C1: the two-mesh scan satisfies the amended claim at
group 0 and entity 0. -/
theorem C1_witness :
    stWit.ray_map ≠ [] ∧
    ((([pickNearRec, pickFarRec].filter (fun r => r.entity == 0)).length ≤ 1) ∧
      ∀ r ∈ [pickNearRec, pickFarRec],
        Provenance Mwit stWit.ray_map queryWit (PickingGroup.Group 0) r) :=
  ⟨by decide,
   C1_at_most_one_closest Mwit stWit queryWit stWitOut (PickingGroup.Group 0)
     [pickNearRec, pickFarRec] 0 (by decide) (by rfl) (by decide) (by decide)
     (by rfl)⟩

/-- Counterexample for C1 as stated: `entryDup` lists group 0 twice in
its `PickableMesh` group list, and a single tick appends its record to
group 0's list twice. -/
theorem C1_cex :
    pick_mesh Mwit stWit [entryDup] = Except.ok outDup ∧
    entryDup.pickable.group = [PickingGroup.Group 0, PickingGroup.Group 0] ∧
    PickState.list outDup (PickingGroup.Group 0) =
      some [pickNearRec, pickNearRec] ∧
    pickNearRec.entity = entryDup.entity ∧
    ([pickNearRec, pickNearRec].filter
      (fun r => r.entity == entryDup.entity)).length = 2 :=
  ⟨rfl, rfl, rfl, rfl, rfl⟩

/-- Witness for C2: the two-mesh scan's output list is sorted. -/
theorem C2_witness :
    (∀ g l, PickState.list stWitOut g = some l →
      List.Chain' (fun a b => lePick a b = true) l) ∧
    (∀ a b : PickIntersection, F.pcmp a.distance b.distance = none →
      cmpPick a b = Ordering.eq) :=
  C2_sorted_by_distance Mwit stWit queryWit stWitOut (by decide) (by rfl)

/-- Witness for C3: the near record of the two-mesh scan has full
provenance in group 0. -/
theorem C3_witness :
    stWit.ray_map ≠ [] ∧
    Provenance Mwit stWit.ray_map queryWit (PickingGroup.Group 0) pickNearRec :=
  ⟨by decide,
   C3_record_provenance Mwit stWit queryWit stWitOut (by decide) (by rfl)
     (PickingGroup.Group 0) [pickNearRec, pickFarRec] (by rfl) pickNearRec
     (List.mem_cons_self pickNearRec [pickFarRec])⟩

/-- Witness for C4: an empty ray map leaves a stale state untouched, and
with rays present the previous intersection map is irrelevant. -/
theorem C4_witness :
    pick_mesh Mwit stStale queryWit = Except.ok stStale ∧
    pick_mesh Mwit ⟨stWit.ray_map, [(PickingGroup.Group 3, [pickFarRec])]⟩
        queryWit =
      pick_mesh Mwit stWit queryWit :=
  ⟨(C4_clear_or_noop Mwit stStale queryWit).1 rfl,
   (C4_clear_or_noop Mwit stWit queryWit).2 (by decide)
     [(PickingGroup.Group 3, [pickFarRec])]⟩

/-- Witness for C5: a second `Center` source for group 0 panics at its
insertion, and a run with two such sources halts. -/
theorem C5_witness :
    buildRaysStep windowsNone [(PickingGroup.Group 0, wRay)] srcCenter =
      Except.error (dupMsg 0) ∧
    isErr (build_rays windowsNone
      ([] ++ (srcCenter :: ([] ++ (srcCenter :: []))))) = true :=
  ⟨C5_duplicate_group_fatal.1 windowsNone [(PickingGroup.Group 0, wRay)]
     srcCenter 0 rfl (by rfl) (by rfl),
   C5_duplicate_group_fatal.2 windowsNone [] [] [] srcCenter srcCenter 0
     rfl rfl (by rfl) (by rfl)⟩

/-- Witness for C6 (amended): a cursor source with a camera but no
pending event is skipped without error. -/
theorem C6_witness : buildRaysStep windowsNone [] srcCam = Except.ok [] :=
  C6_cursor_source_skipped windowsNone [] srcCam 0 Mat4.identity rfl rfl
    (Or.inl rfl)

/-- Counterexample for C6 as stated: a cursor source with no pending
cursor event but also no camera makes the resolver halt with the
missing-camera panic instead of being skipped. -/
theorem C6_cex :
    srcNoCam.pick_method = PickingMethod.Cursor 0 ∧
    srcNoCam.cursor_event = none ∧
    build_rays windowsNone [srcNoCam] = Except.error (noCameraMsg 0) :=
  ⟨rfl, rfl, rfl⟩

/-- Witness for C7 (amended): the skip/panic characterization at the
concrete two-mesh scan. -/
theorem C7_witness :
    (∀ (acc : ListMap) (e : MeshEntry) (mesh : Mesh), e.mesh = some mesh →
      mesh.primitive_topology ≠ PrimitiveTopology.TriangleList →
      processMesh Mwit stWit.ray_map acc e = Except.ok acc) ∧
    (isErr (pick_mesh Mwit stWit queryWit) = true ↔
      ∃ e ∈ queryWit, meshPanics stWit.ray_map e = true) :=
  C7_skip_vs_fatal Mwit stWit queryWit (by decide)

/-- Counterexample for C7 as stated: a triangle-list mesh that does have
an index buffer, but with index 5 out of bounds of its three-point
position buffer, aborts the tick; so the scanner can raise a fatal error
without any index-less triangle-list mesh being reached. -/
theorem C7_cex :
    entryOOB.mesh = some meshOOB ∧
    meshOOB.primitive_topology = PrimitiveTopology.TriangleList ∧
    meshOOB.indices = some [0, 1, 5] ∧
    pick_mesh Mwit stWit [entryOOB] = Except.error oobMsg :=
  ⟨rfl, rfl, rfl, rfl⟩

/-- Witness for C8: the concrete cursor source's emitted ray is the
reference construction. -/
theorem C8_witness :
    buildRaysStep windowsC8 [] srcC8 =
      Except.ok ([] ++ [(srcC8.group,
        specCursorRay ⟨2, 2⟩ srcC8.transform Mat4.identity ⟨1, 1⟩)]) :=
  C8_cursor_ray_reference windowsC8 [] srcC8 0 Mat4.identity ⟨0, ⟨1, 1⟩⟩
    ⟨2, 2⟩ 0 rfl rfl rfl rfl rfl rfl rfl

/-- Witness for C9: re-running the scanner on the two-mesh scan's output
returns it unchanged. -/
theorem C9_witness : pick_mesh Mwit stWitOut queryWit = Except.ok stWitOut :=
  C9_idempotent Mwit stWit queryWit stWitOut (by rfl)

/-- Witness for C10: after the two-mesh scan, stored lists are
non-empty and `top` is the head of `list`. -/
theorem C10_witness :
    (∀ g l, PickState.list stWitOut g = some l → l ≠ []) ∧
    (∀ g, (PickState.top stWitOut g).isSome = (PickState.list stWitOut g).isSome) ∧
    (∀ g l, PickState.list stWitOut g = some l →
      PickState.top stWitOut g = l.head?) :=
  C10_top_is_head Mwit stWit queryWit stWitOut
    (by intro g l h; simp [PickState.list, stWit, alGet] at h) (by rfl)
